import Mathlib

/-!
# AMQP client adapter of fty-common-messagebus: embedding and properties

The development embeds `src/amqp/src/AmqpClient.cpp` (class
`fty::messagebus::amqp::AmqpClient`).  The client is a record of its member
variables together with the part of the transport session that the code writes
to (the connection work queue, the messages handed to senders).  Member
functions are functions on that record.

Blocking calls (`wait_for(TIMEOUT)` on a future) take the list of transport
callbacks that the driver thread delivers, in order, before `TIMEOUT` elapses;
the wait stops at the first moment the awaited future is ready.  Values the code
reads from the transport objects (`receiver.active()`, `connection.active()`,
`connection.reconnected()`) are arguments.

A `std::future_error` that leaves a public operation is an `Except.error`; one that
leaves a callback is an `Except.error` that also carries the client as the handler
left it.  Log lines are not recorded.
-/

namespace MsgBus

/-! ## Data model -/

/-- Modelled from the spec: the declaration of `fty::messagebus::ComState` is not
part of the sources at hand; section 3 of the specification lists its values. -/
inductive ComState where
  | Unknown
  | Connecting
  | Connected
  | ConnectFailed
  | Lost
  deriving DecidableEq, Repr

/-- Modelled from the spec: the declaration of `fty::messagebus::DeliveryState` is
not part of the sources at hand; section 3 of the specification lists its values. -/
inductive DeliveryState where
  | Accepted
  | Rejected
  deriving DecidableEq, Repr

/-- Error conditions of `std::future_error` that the code can meet. -/
inductive FutureErrc where
  | future_already_retrieved
  | promise_already_satisfied
  | broken_promise
  | no_state
  deriving DecidableEq, Repr

/-- A `std::promise<T>` member.  Assigning `std::promise<T>()` to the member makes it
own a new shared state; `gen` counts these assignments, so a future obtained from
the member is the number `gen` had when `get_future()` ran. -/
structure Promise (α : Type) where
  gen : Nat
  value : Option α
  retrieved : Bool
  deriving DecidableEq, Repr

namespace Promise

variable {α : Type}

/-- A default constructed promise, as the members are when the client is built. -/
def initial : Promise α :=
  { gen := 0, value := none, retrieved := false }

/-- The assignment `p = std::promise<T>()`: the old shared state is abandoned and the
member owns a new one, not ready, whose future has not been retrieved. -/
def fresh (p : Promise α) : Promise α :=
  { gen := p.gen + 1, value := none, retrieved := false }

/-- The call `p.set_value(v)`: throws `promise_already_satisfied` when the shared
state already holds a value. -/
def set_value (p : Promise α) (v : α) : Except FutureErrc (Promise α) :=
  if p.value.isSome then .error .promise_already_satisfied
  else .ok { p with value := some v }

/-- The call `p.get_future()`: throws `future_already_retrieved` on a second call for
the same shared state; otherwise yields the future (the generation number). -/
def get_future (p : Promise α) : Except FutureErrc (Nat × Promise α) :=
  if p.retrieved then .error .future_already_retrieved
  else .ok (p.gen, { p with retrieved := true })

/-- Whether the future `fut` taken from this member is ready.  It is ready when its
shared state holds a value, and also when the member has been reassigned since:
abandoning a shared state that is not ready stores `broken_promise` in it and makes
it ready. -/
def ready (p : Promise α) (fut : Nat) : Bool :=
  p.gen != fut || p.value.isSome

/-- The call `future.get()` on a ready future `fut`: the stored value, or the stored
`broken_promise` error when the member was reassigned while the future waited. -/
def get (p : Promise α) (fut : Nat) : Except FutureErrc α :=
  if p.gen != fut then .error .broken_promise
  else match p.value with
    | some v => .ok v
    | none => .error .no_state

end Promise

/-- A `proton::message`, reduced to the parts the client reads.  `correlation_id` is
`none` for an empty `proton::message_id` and `some t` for an id whose
`proton::to_string` text is `t`; `body` is `none` for an empty `proton::value` and
`some t` for a value whose `proton::to_string` text is `t`. -/
structure ProtonMessage where
  address : String
  correlation_id : Option String
  reply_to : String
  subject : String
  user : String
  body : Option String
  deriving DecidableEq, Repr

/-- A default constructed `proton::message`, also what `clear()` leaves. -/
def ProtonMessage.empty : ProtonMessage :=
  { address := "", correlation_id := none, reply_to := "", subject := "", user := "",
    body := none }

/-- The type `fty::messagebus::MetaData`, a map from field name to text. -/
abbrev MetaData := List (String × String)

/-- The type `fty::messagebus::Message` handed to listeners: metadata and user data. -/
structure Message where
  metaData : MetaData
  userData : String
  deriving DecidableEq, Repr

/-- A `MessageListener` (a `std::function`): `none` is the empty function object,
`some n` is the callable named `n`. -/
abbrev MessageListener := Option Nat

/-- A `proton::connection` handle as passed to `on_connection_open`. -/
structure Connection where
  reconnected : Bool
  deriving DecidableEq, Repr

/-- A `proton::sender` handle, named by the address it was opened for. -/
structure Sender where
  address : String
  deriving DecidableEq, Repr

/-- A `proton::receiver` handle, named by its source address. -/
structure Receiver where
  address : String
  deriving DecidableEq, Repr

/-- A unit of work added to `m_connection.work_queue()`. -/
inductive Work where
  | open_sender (address : String)
  | open_receiver (address : String)
  | close_receiver
  | listener (l : MessageListener) (m : Message)
  deriving DecidableEq, Repr

/-- The members of `AmqpClient`, followed by what the code hands to the transport
session: the connection work queue, the messages given to `sender.send`, and whether
`m_connection.close()` was called. -/
structure AmqpClient where
  m_url : String
  m_communicationState : ComState
  m_connectPromise : Promise ComState
  m_promiseSender : Promise Unit
  m_promiseReceiver : Promise Unit
  m_connection : Option Connection
  m_receiver : Option Receiver
  m_message : ProtonMessage
  m_subscriptions : String × MessageListener
  work_queue : List Work
  sent : List (Sender × ProtonMessage)
  connection_closed : Bool
  deriving DecidableEq, Repr

/-- The transport callbacks the driver thread can deliver. -/
inductive Callback where
  | on_container_start (connectThrows : Bool)
  | on_connection_open (connection : Connection)
  | on_sender_open (sender : Sender)
  | on_receiver_open (receiver : Receiver)
  | on_receiver_close (receiver : Receiver)
  | on_error (what : String)
  | on_transport_error (what : String)
  | on_message (msg : ProtonMessage)
  deriving DecidableEq, Repr

namespace AmqpClient

/-! ## Member functions -/

/-- The constructor `AmqpClient(url)`: default members. -/
def create (url : String) : AmqpClient :=
  { m_url := url
    m_communicationState := .Unknown
    m_connectPromise := Promise.initial
    m_promiseSender := Promise.initial
    m_promiseReceiver := Promise.initial
    m_connection := none
    m_receiver := none
    m_message := ProtonMessage.empty
    m_subscriptions := ("", none)
    work_queue := []
    sent := []
    connection_closed := false }

/-- The function `resetPromise`: the three promise members are reassigned. -/
def resetPromise (s : AmqpClient) : AmqpClient :=
  { s with
    m_connectPromise := s.m_connectPromise.fresh
    m_promiseSender := s.m_promiseSender.fresh
    m_promiseReceiver := s.m_promiseReceiver.fresh }

/-- The callback `on_container_start`.  `connectThrows` says whether
`container.connect` throws; the handler then fulfils the connect promise with
`ConnectFailed`.  A throwing `set_value` leaves the callback with the state reached. -/
def on_container_start (s : AmqpClient) (connectThrows : Bool) :
    Except (FutureErrc × AmqpClient) AmqpClient :=
  if connectThrows then
    match s.m_connectPromise.set_value .ConnectFailed with
    | .ok p => .ok { s with m_connectPromise := p }
    | .error e => .error (e, s)
  else .ok s

/-- The callback `on_connection_open`. -/
def on_connection_open (s : AmqpClient) (connection : Connection) :
    Except (FutureErrc × AmqpClient) AmqpClient :=
  let s1 := { s with m_connection := some connection }
  let s2 := if connection.reconnected then s1.resetPromise else s1
  match s2.m_connectPromise.set_value .Connected with
  | .ok p => .ok { s2 with m_connectPromise := p }
  | .error e => .error (e, s2)

/-- The callback `on_sender_open`: the stored message is sent, then the send promise
is fulfilled. -/
def on_sender_open (s : AmqpClient) (sender : Sender) :
    Except (FutureErrc × AmqpClient) AmqpClient :=
  let s1 := { s with sent := s.sent ++ [(sender, s.m_message)] }
  match s1.m_promiseSender.set_value () with
  | .ok p => .ok { s1 with m_promiseSender := p }
  | .error e => .error (e, s1)

/-- The callback `on_receiver_open`: the receiver is recorded, then the receive
promise is fulfilled. -/
def on_receiver_open (s : AmqpClient) (receiver : Receiver) :
    Except (FutureErrc × AmqpClient) AmqpClient :=
  let s1 := { s with m_receiver := some receiver }
  match s1.m_promiseReceiver.set_value () with
  | .ok p => .ok { s1 with m_promiseReceiver := p }
  | .error e => .error (e, s1)

/-- The callback `on_receiver_close`. -/
def on_receiver_close (s : AmqpClient) (_receiver : Receiver) :
    Except (FutureErrc × AmqpClient) AmqpClient :=
  match s.m_promiseReceiver.set_value () with
  | .ok p => .ok { s with m_promiseReceiver := p }
  | .error e => .error (e, s)

/-- The callback `on_error`: a log line only. -/
def on_error (s : AmqpClient) (_what : String) : AmqpClient := s

/-- The callback `on_transport_error`. -/
def on_transport_error (s : AmqpClient) (_what : String) : AmqpClient :=
  { s with m_communicationState := .Lost }

/-- The function `setSubscriptions`. -/
def setSubscriptions (s : AmqpClient) (address : String) (messageListener : MessageListener) :
    AmqpClient :=
  if !address.isEmpty && messageListener.isSome then
    { s with m_subscriptions := (address, messageListener) }
  else s

/-- The routing key that `on_message` computes (the local `key`, lines 188 to 191). -/
def on_message_key (msg : ProtonMessage) : String :=
  let key := msg.address
  if msg.correlation_id.isSome && msg.reply_to.isEmpty then
    msg.correlation_id.getD ""
  else key

/-- The value `amqpMsg` that `on_message` builds.  `getMetaData` is a helper whose
definition is not part of the sources at hand; it is an argument. -/
def on_message_amqpMsg (getMetaData : ProtonMessage → MetaData) (msg : ProtonMessage) : Message :=
  { metaData := getMetaData msg
    userData := match msg.body with
      | none => ""
      | some t => t }

/-- The callback `on_message`.  The call `delivery.accept()` acts on the transport
only and is not recorded. -/
def on_message (getMetaData : ProtonMessage → MetaData) (s : AmqpClient) (msg : ProtonMessage) :
    AmqpClient :=
  let amqpMsg := on_message_amqpMsg getMetaData msg
  if s.m_connection.isSome then
    let key := on_message_key msg
    if !s.m_subscriptions.1.isEmpty && s.m_subscriptions.1 == key
        && s.m_subscriptions.2.isSome then
      { s with work_queue := s.work_queue ++ [Work.listener s.m_subscriptions.2 amqpMsg] }
    else s
  else s

/-- One callback run by the driver thread.  An error result carries the state reached
when the exception left the handler. -/
def fire (getMetaData : ProtonMessage → MetaData) (s : AmqpClient) :
    Callback → Except (FutureErrc × AmqpClient) AmqpClient
  | .on_container_start t => s.on_container_start t
  | .on_connection_open c => s.on_connection_open c
  | .on_sender_open sn => s.on_sender_open sn
  | .on_receiver_open r => s.on_receiver_open r
  | .on_receiver_close r => s.on_receiver_close r
  | .on_error w => .ok (s.on_error w)
  | .on_transport_error w => .ok (s.on_transport_error w)
  | .on_message m => .ok (s.on_message getMetaData m)

/-- The call `future.wait_for(TIMEOUT)`.  `isReady` tells whether the awaited future
is ready in a client state; the list holds the callbacks delivered before `TIMEOUT`
elapses.  The wait ends as soon as the future is ready; the result is `true` for a
status other than `timeout`.  A callback that lets an exception escape ends the
driver thread: nothing more is delivered. -/
def wait_for (getMetaData : ProtonMessage → MetaData) (isReady : AmqpClient → Bool) :
    List Callback → AmqpClient → Bool × AmqpClient
  | [], s => (isReady s, s)
  | e :: es, s =>
    if isReady s then (true, s)
    else match s.fire getMetaData e with
      | .ok s1 => wait_for getMetaData isReady es s1
      | .error (_, s1) => (isReady s1, s1)

/-- The function `connected`.  `evs` are the callbacks delivered while it waits on the
connect future.  An error result is a `std::future_error` leaving the function. -/
def connected (getMetaData : ProtonMessage → MetaData) (s : AmqpClient) (evs : List Callback) :
    Except FutureErrc (ComState × AmqpClient) :=
  if s.m_communicationState = .Unknown ∨ s.m_communicationState = .Lost then
    match s.m_connectPromise.get_future with
    | .error e => .error e
    | .ok (fut, p) =>
      let s1 := { s with m_connectPromise := p }
      match wait_for getMetaData (fun c => c.m_connectPromise.ready fut) evs s1 with
      | (true, s2) =>
        match s2.m_connectPromise.get fut with
        | .ok v => .ok (v, { s2 with m_communicationState := v })
        | .error _ => .ok (s2.m_communicationState, s2)
      | (false, s2) => .ok (.ConnectFailed, { s2 with m_communicationState := .ConnectFailed })
  else .ok (s.m_communicationState, s)

/-- The function `send`.  `evsC` are the callbacks delivered during the wait inside
`connected`, `evsS` those delivered during the wait on the send future. -/
def send (getMetaData : ProtonMessage → MetaData) (s : AmqpClient) (msg : ProtonMessage)
    (evsC evsS : List Callback) : Except FutureErrc (DeliveryState × AmqpClient) :=
  match connected getMetaData s evsC with
  | .error e => .error e
  | .ok (c, s1) =>
    if c = .Connected then
      let s2 := { s1 with
        m_promiseSender := s1.m_promiseSender.fresh
        m_message := msg
        work_queue := s1.work_queue ++ [Work.open_sender msg.address] }
      match s2.m_promiseSender.get_future with
      | .error e => .error e
      | .ok (fut, p) =>
        match wait_for getMetaData (fun c => c.m_promiseSender.ready fut) evsS
            { s2 with m_promiseSender := p } with
        | (true, s3) => .ok (.Accepted, s3)
        | (false, s3) => .ok (.Rejected, s3)
    else .ok (.Rejected, s1)

/-- The function `receive`.  `evsC` are the callbacks delivered during the wait inside
`connected`, `evsR` those delivered during the wait on the receive future. -/
def receive (getMetaData : ProtonMessage → MetaData) (s : AmqpClient) (address filter : String)
    (messageListener : MessageListener) (evsC evsR : List Callback) :
    Except FutureErrc (DeliveryState × AmqpClient) :=
  match connected getMetaData s evsC with
  | .error e => .error e
  | .ok (c, s1) =>
    if c = .Connected then
      let s2 := { s1 with m_promiseReceiver := s1.m_promiseReceiver.fresh }
      let s3 := if !filter.isEmpty then s2.setSubscriptions filter messageListener
        else s2.setSubscriptions address messageListener
      let s4 := { s3 with work_queue := s3.work_queue ++ [Work.open_receiver address] }
      match s4.m_promiseReceiver.get_future with
      | .error e => .error e
      | .ok (fut, p) =>
        match wait_for getMetaData (fun c => c.m_promiseReceiver.ready fut) evsR
            { s4 with m_promiseReceiver := p } with
        | (true, s5) => .ok (.Accepted, s5)
        | (false, s5) => .ok (.Rejected, s5)
    else .ok (.Rejected, s1)

/-- The function `unreceive`.  `active` is what `m_receiver.active()` reports; `evs`
are the callbacks delivered during the wait on the receive future. -/
def unreceive (getMetaData : ProtonMessage → MetaData) (s : AmqpClient) (active : Bool)
    (evs : List Callback) : Except FutureErrc (DeliveryState × AmqpClient) :=
  let s1 := { s with m_promiseReceiver := s.m_promiseReceiver.fresh }
  match s1.m_receiver with
  | some _ =>
    if active then
      let s2 := { s1 with work_queue := s1.work_queue ++ [Work.close_receiver] }
      match s2.m_promiseReceiver.get_future with
      | .error e => .error e
      | .ok (fut, p) =>
        match wait_for getMetaData (fun c => c.m_promiseReceiver.ready fut) evs
            { s2 with m_promiseReceiver := p } with
        | (true, s3) => .ok (.Accepted, { s3 with m_subscriptions := ("", none) })
        | (false, s3) => .ok (.Rejected, { s3 with m_subscriptions := ("", none) })
    else .ok (.Rejected, { s1 with m_subscriptions := ("", none) })
  | none => .ok (.Rejected, s1)

/-- The function `close`.  `receiverActive` and `connectionActive` are what
`m_receiver.active()` and `m_connection.active()` report. -/
def close (getMetaData : ProtonMessage → MetaData) (s : AmqpClient) (receiverActive : Bool)
    (evs : List Callback) (connectionActive : Bool) :
    Except FutureErrc (DeliveryState × AmqpClient) :=
  match unreceive getMetaData s receiverActive evs with
  | .error e => .error e
  | .ok (deliveryState, s1) =>
    if s1.m_connection.isSome && connectionActive then
      .ok (deliveryState, { s1 with connection_closed := true })
    else .ok (deliveryState, s1)

end AmqpClient

/-! ## Auxiliary definitions for the statements -/

/-- Whether a unit of work is a listener call. -/
def Work.isListener : Work → Bool
  | .listener _ _ => true
  | _ => false

/-- What the driver thread may have done to the client between two moments, as far as
the caller can tell: the subscription slot and the stored outgoing message are the
same, and the work queue has grown by listener calls only. -/
def Frame (s c : AmqpClient) : Prop :=
  c.m_subscriptions = s.m_subscriptions ∧ c.m_message = s.m_message ∧
    ∃ extra, c.work_queue = s.work_queue ++ extra ∧ ∀ w ∈ extra, w.isListener = true

/-- The client at the moment `receive` starts to wait on the receive future, when
`connected` has answered `Connected` and left the client `sc`: the receive promise is
new and its future taken, the slot is written, the open-receiver unit is queued. -/
def receiveArmed (sc : AmqpClient) (address filter : String) (messageListener : MessageListener) :
    AmqpClient :=
  let s2 := { sc with m_promiseReceiver := sc.m_promiseReceiver.fresh }
  let s3 := if !filter.isEmpty then s2.setSubscriptions filter messageListener
    else s2.setSubscriptions address messageListener
  { s3 with
    work_queue := s3.work_queue ++ [Work.open_receiver address]
    m_promiseReceiver := { gen := sc.m_promiseReceiver.gen + 1, value := none, retrieved := true } }

/-- The client at the moment `send` starts to wait on the send future, when `connected`
has answered `Connected` and left the client `sc`. -/
def sendArmed (sc : AmqpClient) (msg : ProtonMessage) : AmqpClient :=
  { sc with
    m_promiseSender := { gen := sc.m_promiseSender.gen + 1, value := none, retrieved := true }
    m_message := msg
    work_queue := sc.work_queue ++ [Work.open_sender msg.address] }

/-- The client at the moment `unreceive` starts to wait on the receive future, when a
receiver handle is recorded and active. -/
def unreceiveArmed (s : AmqpClient) : AmqpClient :=
  { s with
    m_promiseReceiver := { gen := s.m_promiseReceiver.gen + 1, value := none, retrieved := true }
    work_queue := s.work_queue ++ [Work.close_receiver] }

/-- The link between the connection state and the connection handle: when the state is
`Connected`, or the connect promise holds `Connected`, `on_connection_open` has run
and the handle `m_connection` is recorded. -/
def ConnInv (s : AmqpClient) : Prop :=
  (s.m_communicationState = .Connected ∨ s.m_connectPromise.value = some .Connected) →
    s.m_connection.isSome = true

/-- The client states of a run: a new client, then any interleaving of transport
callbacks (returning or raising) and public operations that return. -/
inductive Reachable (getMetaData : ProtonMessage → MetaData) : AmqpClient → Prop where
  | create (url : String) : Reachable getMetaData (AmqpClient.create url)
  | callback {s c : AmqpClient} (e : Callback) :
      Reachable getMetaData s → AmqpClient.fire getMetaData s e = .ok c →
      Reachable getMetaData c
  | callback_raised {s c : AmqpClient} (e : Callback) (x : FutureErrc) :
      Reachable getMetaData s → AmqpClient.fire getMetaData s e = .error (x, c) →
      Reachable getMetaData c
  | connected {s c : AmqpClient} (evs : List Callback) (r : ComState) :
      Reachable getMetaData s → AmqpClient.connected getMetaData s evs = .ok (r, c) →
      Reachable getMetaData c
  | send {s c : AmqpClient} (msg : ProtonMessage) (evsC evsS : List Callback)
      (d : DeliveryState) :
      Reachable getMetaData s → AmqpClient.send getMetaData s msg evsC evsS = .ok (d, c) →
      Reachable getMetaData c
  | receive {s c : AmqpClient} (address filter : String) (l : MessageListener)
      (evsC evsR : List Callback) (d : DeliveryState) :
      Reachable getMetaData s →
      AmqpClient.receive getMetaData s address filter l evsC evsR = .ok (d, c) →
      Reachable getMetaData c
  | unreceive {s c : AmqpClient} (active : Bool) (evs : List Callback) (d : DeliveryState) :
      Reachable getMetaData s → AmqpClient.unreceive getMetaData s active evs = .ok (d, c) →
      Reachable getMetaData c
  | close {s c : AmqpClient} (receiverActive : Bool) (evs : List Callback)
      (connectionActive : Bool) (d : DeliveryState) :
      Reachable getMetaData s →
      AmqpClient.close getMetaData s receiverActive evs connectionActive = .ok (d, c) →
      Reachable getMetaData c
  | setSubscriptions {s : AmqpClient} (address : String) (l : MessageListener) :
      Reachable getMetaData s → Reachable getMetaData (s.setSubscriptions address l)

/-- Whether a callback is `on_transport_error`. -/
def Callback.isTransportError : Callback → Bool
  | .on_transport_error _ => true
  | _ => false

/-- Whether a callback is `on_connection_open` for a connection that reports
`reconnected()`. -/
def Callback.isReconnect : Callback → Bool
  | .on_connection_open c => c.reconnected
  | _ => false

/-- The subscription slot is well formed: its key is empty exactly when its listener is
absent. -/
def slotWellFormed (s : AmqpClient) : Prop :=
  s.m_subscriptions.1 = "" ↔ s.m_subscriptions.2 = none

/-- Whether a callback makes a future on the receive signal ready: `on_receiver_open`
and `on_receiver_close` fulfil the signal, a reconnect replaces it. -/
def Callback.endsReceiveWait : Callback → Bool
  | .on_receiver_open _ => true
  | .on_receiver_close _ => true
  | .on_connection_open c => c.reconnected
  | _ => false

/-- Whether a callback calls `set_value` on the connect signal or replaces it:
`on_connection_open`, and `on_container_start` when the connect attempt throws. -/
def Callback.touchesConnect : Callback → Bool
  | .on_connection_open _ => true
  | .on_container_start connectThrows => connectThrows
  | _ => false

/-- Whether a list of callbacks holds neither a transport error nor a reconnect. -/
def quietCallbacks (evs : List Callback) : Prop :=
  ∀ e ∈ evs, e.isTransportError = false ∧ e.isReconnect = false

/-- A stretch of a run, from the first client to the second, during which no
transport-error callback and no reconnect is delivered: callbacks other than these
two, calls of `connected`, and the other operations with such callbacks only during
their waits. -/
inductive Quiet (getMetaData : ProtonMessage → MetaData) : AmqpClient → AmqpClient → Prop where
  | refl (s : AmqpClient) : Quiet getMetaData s s
  | callback {s a b : AmqpClient} (e : Callback) :
      Quiet getMetaData s a → e.isTransportError = false → e.isReconnect = false →
      AmqpClient.fire getMetaData a e = .ok b → Quiet getMetaData s b
  | callback_raised {s a b : AmqpClient} (e : Callback) (x : FutureErrc) :
      Quiet getMetaData s a → e.isTransportError = false → e.isReconnect = false →
      AmqpClient.fire getMetaData a e = .error (x, b) → Quiet getMetaData s b
  | connected {s a b : AmqpClient} (evs : List Callback) (r : ComState) :
      Quiet getMetaData s a → quietCallbacks evs →
      AmqpClient.connected getMetaData a evs = .ok (r, b) → Quiet getMetaData s b
  | send {s a b : AmqpClient} (msg : ProtonMessage) (evsC evsS : List Callback)
      (d : DeliveryState) :
      Quiet getMetaData s a → quietCallbacks evsC → quietCallbacks evsS →
      AmqpClient.send getMetaData a msg evsC evsS = .ok (d, b) → Quiet getMetaData s b
  | receive {s a b : AmqpClient} (address filter : String) (l : MessageListener)
      (evsC evsR : List Callback) (d : DeliveryState) :
      Quiet getMetaData s a → quietCallbacks evsC → quietCallbacks evsR →
      AmqpClient.receive getMetaData a address filter l evsC evsR = .ok (d, b) →
      Quiet getMetaData s b
  | unreceive {s a b : AmqpClient} (active : Bool) (evs : List Callback) (d : DeliveryState) :
      Quiet getMetaData s a → quietCallbacks evs →
      AmqpClient.unreceive getMetaData a active evs = .ok (d, b) → Quiet getMetaData s b
  | close {s a b : AmqpClient} (receiverActive : Bool) (evs : List Callback)
      (connectionActive : Bool) (d : DeliveryState) :
      Quiet getMetaData s a → quietCallbacks evs →
      AmqpClient.close getMetaData a receiverActive evs connectionActive = .ok (d, b) →
      Quiet getMetaData s b

/-- A metadata reader that reports no field, for the examples. -/
def noMetaData : ProtonMessage → MetaData := fun _ => []

/-- A client in state `Connected` with its connection handle recorded, as left by a
first `connected()` call answered by `on_connection_open`; for the examples. -/
def connectedClient : AmqpClient :=
  { AmqpClient.create "amqp://127.0.0.1:5672" with
    m_communicationState := .Connected
    m_connectPromise := { gen := 0, value := some .Connected, retrieved := true }
    m_connection := some { reconnected := false } }

/-- The client `connectedClient` after `receive("/topicTest", "", listener 1)` was
answered by `on_receiver_open`; for the examples. -/
def subscribedClient : AmqpClient :=
  { connectedClient with
    m_promiseReceiver := { gen := 1, value := some (), retrieved := true }
    m_receiver := some { address := "/topicTest" }
    m_subscriptions := ("/topicTest", some 1)
    work_queue := [Work.open_receiver "/topicTest"] }

/-- The client `connectedClient` after `receive("/replyQueue", "1234", listener 2)` was
answered by `on_receiver_open`: listener 2 waits for the reply correlated by `1234`;
for the examples. -/
def requesterClient : AmqpClient :=
  { connectedClient with
    m_promiseReceiver := { gen := 1, value := some (), retrieved := true }
    m_receiver := some { address := "/replyQueue" }
    m_subscriptions := ("1234", some 2)
    work_queue := [Work.open_receiver "/replyQueue"] }

open AmqpClient

/-! ## Routing of inbound messages -/

/-- The test `empty()` on a string decides equality with the empty string. -/
theorem isEmpty_eq_decide (t : String) : t.isEmpty = decide (t = "") := by
  by_cases h : t = ""
  · subst h; rfl
  · have h2 : t.isEmpty ≠ true := fun e => h ((String.isEmpty_iff t).mp e)
    simp [h, h2]

/-- C1. The routing key that `on_message` computes is the correlation id when the
correlation id is non-empty and the reply-to is empty, and the message address in
every other case. -/
theorem C1_routing_key (msg : ProtonMessage) :
    on_message_key msg =
      match msg.correlation_id, decide (msg.reply_to = "") with
      | some c, true => c
      | _, _ => msg.address := by
  unfold on_message_key
  cases hc : msg.correlation_id with
  | none => simp
  | some c =>
    by_cases hr : msg.reply_to = ""
    · simp [hr, isEmpty_eq_decide]
    · simp [hr, isEmpty_eq_decide]

/-- A message is dropped, the client staying as it was, when its routing key is not the
key of the slot, when the key of the slot is empty, or when the slot has no listener. -/
theorem on_message_unmatched (getMetaData : ProtonMessage → MetaData) (s : AmqpClient)
    (msg : ProtonMessage)
    (h : on_message_key msg ≠ s.m_subscriptions.1 ∨ s.m_subscriptions.1 = ""
      ∨ s.m_subscriptions.2 = none) :
    on_message getMetaData s msg = s := by
  unfold on_message
  by_cases hconn : s.m_connection.isSome = true
  · rcases h with h | h | h
    · have h2 : (s.m_subscriptions.1 == on_message_key msg) = false := by
        simp only [beq_eq_false_iff_ne, ne_eq]
        exact fun e => h e.symm
      simp [h2]
    · simp [h, isEmpty_eq_decide]
    · simp [h]
  · simp [hconn]

/-- C2. A message whose routing key differs from the key of the active subscription,
or that arrives while no subscription is active (empty key or absent listener), leaves
the whole client as it was: no listener is put on the work queue and the subscription
slot is untouched.  `on_message` is a total function, so it does not fail. -/
theorem C2_unmatched_message_dropped (getMetaData : ProtonMessage → MetaData) (s : AmqpClient)
    (msg : ProtonMessage)
    (h : on_message_key msg ≠ s.m_subscriptions.1 ∨ s.m_subscriptions.1 = ""
      ∨ s.m_subscriptions.2 = none) :
    on_message getMetaData s msg = s ∧
      (on_message getMetaData s msg).work_queue = s.work_queue ∧
      (on_message getMetaData s msg).m_subscriptions = s.m_subscriptions := by
  rw [on_message_unmatched getMetaData s msg h]
  exact ⟨rfl, rfl, rfl⟩

/-- A run of C2: the client subscribed to `/topicTest` gets a message for `/other`. -/
theorem C2_unmatched_message_dropped_witness :
    on_message noMetaData
        { connectedClient with m_subscriptions := ("/topicTest", some 1) }
        { ProtonMessage.empty with address := "/other", body := some "RESPONSE" }
      = { connectedClient with m_subscriptions := ("/topicTest", some 1) } :=
  (C2_unmatched_message_dropped noMetaData
    { connectedClient with m_subscriptions := ("/topicTest", some 1) }
    { ProtonMessage.empty with address := "/other", body := some "RESPONSE" }
    (Or.inl (by decide))).1

/-! ## What callbacks leave alone -/

theorem Frame.refl (s : AmqpClient) : Frame s s :=
  ⟨rfl, rfl, [], by simp, by simp⟩

theorem Frame.trans {a b c : AmqpClient} (h1 : Frame a b) (h2 : Frame b c) : Frame a c := by
  obtain ⟨hs1, hm1, x1, hq1, hx1⟩ := h1
  obtain ⟨hs2, hm2, x2, hq2, hx2⟩ := h2
  refine ⟨hs2.trans hs1, hm2.trans hm1, x1 ++ x2, ?_, ?_⟩
  · rw [hq2, hq1, List.append_assoc]
  · intro w hw
    rcases List.mem_append.mp hw with h | h
    · exact hx1 w h
    · exact hx2 w h

/-- A frame from equal slot, equal message and equal work queue. -/
theorem Frame.of_eq {s c : AmqpClient} (hs : c.m_subscriptions = s.m_subscriptions)
    (hm : c.m_message = s.m_message) (hq : c.work_queue = s.work_queue) : Frame s c :=
  ⟨hs, hm, [], by simp [hq], by simp⟩

/-- The callback `on_message` adds at most one listener call to the work queue and
changes nothing else. -/
theorem on_message_frame (getMetaData : ProtonMessage → MetaData) (s : AmqpClient)
    (msg : ProtonMessage) : Frame s (on_message getMetaData s msg) := by
  unfold on_message
  by_cases hc : s.m_connection.isSome = true
  · by_cases hk : (!s.m_subscriptions.1.isEmpty && s.m_subscriptions.1 == on_message_key msg
        && s.m_subscriptions.2.isSome) = true
    · simp only [hc, hk, if_true]
      exact ⟨rfl, rfl, [Work.listener s.m_subscriptions.2 (on_message_amqpMsg getMetaData msg)],
        rfl, by simp [Work.isListener]⟩
    · simp only [hc, hk, if_true]
      exact Frame.refl s
  · simp only [hc]
    exact Frame.refl s

/-- Every callback, whether it returns or lets an exception escape, keeps the frame. -/
theorem fire_frame (getMetaData : ProtonMessage → MetaData) (s : AmqpClient) (e : Callback) :
    match fire getMetaData s e with
    | .ok c => Frame s c
    | .error (_, c) => Frame s c := by
  cases e with
  | on_container_start t =>
    cases t
    · simp only [fire, on_container_start]
      exact Frame.refl s
    · by_cases hv : s.m_connectPromise.value.isSome = true
      · simp only [fire, on_container_start, Promise.set_value, hv, if_true, Bool.false_eq_true, if_false]
        exact Frame.refl s
      · simp only [fire, on_container_start, Promise.set_value, hv, if_true, Bool.false_eq_true, if_false]
        exact Frame.of_eq rfl rfl rfl
  | on_connection_open c =>
    obtain ⟨b⟩ := c
    cases b
    · by_cases hv : s.m_connectPromise.value.isSome = true
      · simp only [fire, on_connection_open, Promise.set_value, hv, if_true, Bool.false_eq_true, if_false]
        exact Frame.of_eq rfl rfl rfl
      · simp only [fire, on_connection_open, Promise.set_value, hv, if_true, Bool.false_eq_true, if_false]
        exact Frame.of_eq rfl rfl rfl
    · simp only [fire, on_connection_open, Promise.set_value, resetPromise, Promise.fresh,
        if_true, Option.isSome_none, Bool.false_eq_true, if_false]
      exact Frame.of_eq rfl rfl rfl
  | on_sender_open sn =>
    by_cases hv : s.m_promiseSender.value.isSome = true
    · simp only [fire, on_sender_open, Promise.set_value, hv, if_true, Bool.false_eq_true, if_false]
      exact Frame.of_eq rfl rfl rfl
    · simp only [fire, on_sender_open, Promise.set_value, hv, if_true, Bool.false_eq_true, if_false]
      exact Frame.of_eq rfl rfl rfl
  | on_receiver_open r =>
    by_cases hv : s.m_promiseReceiver.value.isSome = true
    · simp only [fire, on_receiver_open, Promise.set_value, hv, if_true, Bool.false_eq_true, if_false]
      exact Frame.of_eq rfl rfl rfl
    · simp only [fire, on_receiver_open, Promise.set_value, hv, if_true, Bool.false_eq_true, if_false]
      exact Frame.of_eq rfl rfl rfl
  | on_receiver_close r =>
    by_cases hv : s.m_promiseReceiver.value.isSome = true
    · simp only [fire, on_receiver_close, Promise.set_value, hv, if_true, Bool.false_eq_true, if_false]
      exact Frame.refl s
    · simp only [fire, on_receiver_close, Promise.set_value, hv, if_true, Bool.false_eq_true, if_false]
      exact Frame.of_eq rfl rfl rfl
  | on_error w => exact Frame.refl s
  | on_transport_error w => exact Frame.of_eq rfl rfl rfl
  | on_message m => exact on_message_frame getMetaData s m

/-- A wait keeps the frame, whatever callbacks are delivered during it. -/
theorem wait_for_frame (getMetaData : ProtonMessage → MetaData) (isReady : AmqpClient → Bool)
    (evs : List Callback) (s : AmqpClient) :
    Frame s (wait_for getMetaData isReady evs s).2 := by
  induction evs generalizing s with
  | nil => exact Frame.refl s
  | cons e es ih =>
    unfold wait_for
    by_cases hr : isReady s = true
    · simp only [hr, if_true]
      exact Frame.refl s
    · simp only [hr]
      have hf := fire_frame getMetaData s e
      cases hfe : fire getMetaData s e with
      | ok c =>
        rw [hfe] at hf
        exact Frame.trans hf (ih c)
      | error x =>
        obtain ⟨x1, c⟩ := x
        rw [hfe] at hf
        exact hf

/-- The callback `on_message` writes the work queue and nothing else. -/
theorem on_message_eq (getMetaData : ProtonMessage → MetaData) (s : AmqpClient)
    (msg : ProtonMessage) :
    on_message getMetaData s msg =
      { s with work_queue := (on_message getMetaData s msg).work_queue } := by
  unfold on_message
  by_cases hc : s.m_connection.isSome = true
  · by_cases hk : (!s.m_subscriptions.1.isEmpty && s.m_subscriptions.1 == on_message_key msg
        && s.m_subscriptions.2.isSome) = true
    · simp only [hc, hk, if_true]
    · simp only [hc, hk, if_true, Bool.false_eq_true, if_false]
  · simp only [hc, Bool.false_eq_true, if_false]

/-- A property that every callback keeps, returning or raising, is kept by a wait. -/
theorem wait_for_preserves (getMetaData : ProtonMessage → MetaData) (P : AmqpClient → Prop)
    (hstep : ∀ s e, P s →
      match fire getMetaData s e with
      | .ok c => P c
      | .error (_, c) => P c)
    (isReady : AmqpClient → Bool) (evs : List Callback) (s : AmqpClient) (h : P s) :
    P (wait_for getMetaData isReady evs s).2 := by
  induction evs generalizing s with
  | nil => exact h
  | cons e es ih =>
    unfold wait_for
    by_cases hr : isReady s = true
    · simp only [hr, if_true]
      exact h
    · simp only [hr]
      have hf := hstep s e h
      cases hfe : fire getMetaData s e with
      | ok c =>
        rw [hfe] at hf
        exact ih c hf
      | error x =>
        obtain ⟨x1, c⟩ := x
        rw [hfe] at hf
        exact hf

/-- No callback removes a recorded connection handle. -/
theorem fire_connection (getMetaData : ProtonMessage → MetaData) (s : AmqpClient) (e : Callback)
    (h : s.m_connection.isSome = true) :
    match fire getMetaData s e with
    | .ok c => c.m_connection.isSome = true
    | .error (_, c) => c.m_connection.isSome = true := by
  cases e with
  | on_container_start t =>
    cases t
    · simp only [fire, on_container_start]
      exact h
    · by_cases hv : s.m_connectPromise.value.isSome = true
      · simp only [fire, on_container_start, Promise.set_value, hv, if_true, Bool.false_eq_true, if_false]
        exact h
      · simp only [fire, on_container_start, Promise.set_value, hv, if_true, Bool.false_eq_true, if_false]
        exact h
  | on_connection_open c =>
    obtain ⟨b⟩ := c
    cases b
    · by_cases hv : s.m_connectPromise.value.isSome = true
      · simp only [fire, on_connection_open, Promise.set_value, hv, if_true, Bool.false_eq_true, if_false]
        rfl
      · simp only [fire, on_connection_open, Promise.set_value, hv, if_true, Bool.false_eq_true, if_false]
        rfl
    · simp only [fire, on_connection_open, Promise.set_value, resetPromise, Promise.fresh,
        if_true, Option.isSome_none, Bool.false_eq_true, if_false]
      rfl
  | on_sender_open sn =>
    by_cases hv : s.m_promiseSender.value.isSome = true
    · simp only [fire, on_sender_open, Promise.set_value, hv, if_true, Bool.false_eq_true, if_false]
      exact h
    · simp only [fire, on_sender_open, Promise.set_value, hv, if_true, Bool.false_eq_true, if_false]
      exact h
  | on_receiver_open r =>
    by_cases hv : s.m_promiseReceiver.value.isSome = true
    · simp only [fire, on_receiver_open, Promise.set_value, hv, if_true, Bool.false_eq_true, if_false]
      exact h
    · simp only [fire, on_receiver_open, Promise.set_value, hv, if_true, Bool.false_eq_true, if_false]
      exact h
  | on_receiver_close r =>
    by_cases hv : s.m_promiseReceiver.value.isSome = true
    · simp only [fire, on_receiver_close, Promise.set_value, hv, if_true, Bool.false_eq_true, if_false]
      exact h
    · simp only [fire, on_receiver_close, Promise.set_value, hv, if_true, Bool.false_eq_true, if_false]
      exact h
  | on_error w => exact h
  | on_transport_error w => exact h
  | on_message m =>
    simp only [fire]
    rw [on_message_eq]
    exact h

/-- A wait removes no recorded connection handle. -/
theorem wait_for_connection (getMetaData : ProtonMessage → MetaData)
    (isReady : AmqpClient → Bool) (evs : List Callback) (s : AmqpClient)
    (h : s.m_connection.isSome = true) :
    (wait_for getMetaData isReady evs s).2.m_connection.isSome = true :=
  wait_for_preserves getMetaData (fun c => c.m_connection.isSome = true)
    (fun s e hs => fire_connection getMetaData s e hs) isReady evs s h

/-- Every callback keeps the link between connection state and connection handle. -/
theorem fire_connInv (getMetaData : ProtonMessage → MetaData) (s : AmqpClient) (e : Callback)
    (h : ConnInv s) :
    match fire getMetaData s e with
    | .ok c => ConnInv c
    | .error (_, c) => ConnInv c := by
  cases e with
  | on_container_start t =>
    cases t
    · simp only [fire, on_container_start]
      exact h
    · by_cases hv : s.m_connectPromise.value.isSome = true
      · simp only [fire, on_container_start, Promise.set_value, hv, if_true, Bool.false_eq_true, if_false]
        exact h
      · simp only [fire, on_container_start, Promise.set_value, hv, if_true, Bool.false_eq_true, if_false]
        intro hc
        rcases hc with hc | hc
        · exact h (Or.inl hc)
        · simp at hc
  | on_connection_open c =>
    obtain ⟨b⟩ := c
    cases b
    · by_cases hv : s.m_connectPromise.value.isSome = true
      · simp only [fire, on_connection_open, Promise.set_value, hv, if_true, Bool.false_eq_true, if_false]
        intro _
        rfl
      · simp only [fire, on_connection_open, Promise.set_value, hv, if_true, Bool.false_eq_true, if_false]
        intro _
        rfl
    · simp only [fire, on_connection_open, Promise.set_value, resetPromise, Promise.fresh,
        if_true, Option.isSome_none, Bool.false_eq_true, if_false]
      intro _
      rfl
  | on_sender_open sn =>
    by_cases hv : s.m_promiseSender.value.isSome = true
    · simp only [fire, on_sender_open, Promise.set_value, hv, if_true, Bool.false_eq_true, if_false]
      exact h
    · simp only [fire, on_sender_open, Promise.set_value, hv, if_true, Bool.false_eq_true, if_false]
      exact h
  | on_receiver_open r =>
    by_cases hv : s.m_promiseReceiver.value.isSome = true
    · simp only [fire, on_receiver_open, Promise.set_value, hv, if_true, Bool.false_eq_true, if_false]
      exact h
    · simp only [fire, on_receiver_open, Promise.set_value, hv, if_true, Bool.false_eq_true, if_false]
      exact h
  | on_receiver_close r =>
    by_cases hv : s.m_promiseReceiver.value.isSome = true
    · simp only [fire, on_receiver_close, Promise.set_value, hv, if_true, Bool.false_eq_true, if_false]
      exact h
    · simp only [fire, on_receiver_close, Promise.set_value, hv, if_true, Bool.false_eq_true, if_false]
      exact h
  | on_error w => exact h
  | on_transport_error w =>
    simp only [fire, on_transport_error]
    intro hc
    rcases hc with hc | hc
    · simp at hc
    · exact h (Or.inr hc)
  | on_message m =>
    simp only [fire]
    rw [on_message_eq]
    exact h

/-- A wait keeps the link between connection state and connection handle. -/
theorem wait_for_connInv (getMetaData : ProtonMessage → MetaData)
    (isReady : AmqpClient → Bool) (evs : List Callback) (s : AmqpClient) (h : ConnInv s) :
    ConnInv (wait_for getMetaData isReady evs s).2 :=
  wait_for_preserves getMetaData ConnInv (fun s e hs => fire_connInv getMetaData s e hs)
    isReady evs s h

/-- The function `connected` keeps the frame. -/
theorem connected_frame {getMetaData : ProtonMessage → MetaData} {s s1 : AmqpClient}
    {evs : List Callback} {c : ComState}
    (h : connected getMetaData s evs = .ok (c, s1)) : Frame s s1 := by
  unfold connected at h
  by_cases hst : s.m_communicationState = .Unknown ∨ s.m_communicationState = .Lost
  · rw [if_pos hst] at h
    by_cases hret : s.m_connectPromise.retrieved = true
    · simp [Promise.get_future, hret] at h
    · simp only [Promise.get_future, hret, Bool.false_eq_true, if_false] at h
      have hf := wait_for_frame getMetaData
        (fun c => c.m_connectPromise.ready s.m_connectPromise.gen) evs
        { s with m_connectPromise := { s.m_connectPromise with retrieved := true } }
      have h0 : Frame s { s with m_connectPromise := { s.m_connectPromise with retrieved := true } } :=
        Frame.of_eq rfl rfl rfl
      revert h
      cases hw : wait_for getMetaData
        (fun c => c.m_connectPromise.ready s.m_connectPromise.gen) evs
        { s with m_connectPromise := { s.m_connectPromise with retrieved := true } } with
      | mk r s2 =>
        rw [hw] at hf
        intro h
        cases r with
        | true =>
          simp only at h
          cases hg : s2.m_connectPromise.get s.m_connectPromise.gen with
          | ok v =>
            rw [hg] at h
            simp only [Except.ok.injEq, Prod.mk.injEq] at h
            rw [← h.2]
            exact Frame.trans h0 (Frame.trans hf (Frame.of_eq rfl rfl rfl))
          | error x =>
            rw [hg] at h
            simp only [Except.ok.injEq, Prod.mk.injEq] at h
            rw [← h.2]
            exact Frame.trans h0 hf
        | false =>
          simp only [Except.ok.injEq, Prod.mk.injEq] at h
          rw [← h.2]
          exact Frame.trans h0 (Frame.trans hf (Frame.of_eq rfl rfl rfl))
  · rw [if_neg hst] at h
    simp only [Except.ok.injEq, Prod.mk.injEq] at h
    rw [← h.2]
    exact Frame.refl s

/-- The function `setSubscriptions` writes the slot and nothing else. -/
theorem setSubscriptions_eq (s : AmqpClient) (address : String) (l : MessageListener) :
    s.setSubscriptions address l =
      { s with m_subscriptions := (s.setSubscriptions address l).m_subscriptions } := by
  unfold setSubscriptions
  split <;> rfl

/-- With a key that is not empty and a listener that is present, `setSubscriptions`
stores the pair. -/
theorem setSubscriptions_valid (s : AmqpClient) (address : String) (l : Nat)
    (h : address ≠ "") :
    s.setSubscriptions address (some l) = { s with m_subscriptions := (address, some l) } := by
  simp [setSubscriptions, isEmpty_eq_decide, h]

/-- The function `receive` on a client that `connected` finds `Connected`: the result is
decided by the wait that starts from `receiveArmed`. -/
theorem receive_connected {getMetaData : ProtonMessage → MetaData} {s sc : AmqpClient}
    {evsC : List Callback} (hc : connected getMetaData s evsC = .ok (.Connected, sc))
    (address filter : String) (l : MessageListener) (evsR : List Callback) :
    receive getMetaData s address filter l evsC evsR =
      .ok (if (wait_for getMetaData
              (fun c => c.m_promiseReceiver.ready (sc.m_promiseReceiver.gen + 1)) evsR
              (receiveArmed sc address filter l)).1 then DeliveryState.Accepted
            else DeliveryState.Rejected,
          (wait_for getMetaData
              (fun c => c.m_promiseReceiver.ready (sc.m_promiseReceiver.gen + 1)) evsR
              (receiveArmed sc address filter l)).2) := by
  unfold receive
  rw [hc]
  simp only [if_true]
  have harm : ∀ s3 : AmqpClient, s3.m_promiseReceiver = sc.m_promiseReceiver.fresh →
      Promise.get_future
        ({ s3 with work_queue := s3.work_queue ++ [Work.open_receiver address] }).m_promiseReceiver
        = .ok (sc.m_promiseReceiver.gen + 1,
            { gen := sc.m_promiseReceiver.gen + 1, value := none, retrieved := true }) := by
    intro s3 h3
    simp [Promise.get_future, h3, Promise.fresh]
  by_cases hf : filter.isEmpty = true
  · simp only [hf, Bool.not_true, Bool.false_eq_true, if_false]
    rw [harm _ (by rw [setSubscriptions_eq])]
    simp only [receiveArmed, hf, Bool.not_true, Bool.false_eq_true, if_false]
    cases hw : wait_for getMetaData
        (fun c => c.m_promiseReceiver.ready (sc.m_promiseReceiver.gen + 1)) evsR _ with
    | mk r s5 => cases r <;> simp
  · simp only [hf, Bool.not_false, if_true]
    rw [harm _ (by rw [setSubscriptions_eq])]
    simp only [receiveArmed, hf, Bool.not_false, if_true]
    cases hw : wait_for getMetaData
        (fun c => c.m_promiseReceiver.ready (sc.m_promiseReceiver.gen + 1)) evsR _ with
    | mk r s5 => cases r <;> simp

/-- The function `send` on a client that `connected` finds `Connected`: the result is
decided by the wait that starts from `sendArmed`. -/
theorem send_connected {getMetaData : ProtonMessage → MetaData} {s sc : AmqpClient}
    {evsC : List Callback} (hc : connected getMetaData s evsC = .ok (.Connected, sc))
    (msg : ProtonMessage) (evsS : List Callback) :
    send getMetaData s msg evsC evsS =
      .ok (if (wait_for getMetaData
              (fun c => c.m_promiseSender.ready (sc.m_promiseSender.gen + 1)) evsS
              (sendArmed sc msg)).1 then DeliveryState.Accepted
            else DeliveryState.Rejected,
          (wait_for getMetaData
              (fun c => c.m_promiseSender.ready (sc.m_promiseSender.gen + 1)) evsS
              (sendArmed sc msg)).2) := by
  unfold send
  rw [hc]
  simp only [if_true, Promise.get_future, Promise.fresh, Bool.false_eq_true, if_false, sendArmed]
  split
  · next s3 heq => simp [heq]
  · next s3 heq => simp [heq]

/-- The function `unreceive` always returns.  Without a recorded receiver handle only
the receive promise is renewed; with one, the slot is cleared, after a wait that starts
from `unreceiveArmed` when the receiver is active. -/
theorem unreceive_eq (getMetaData : ProtonMessage → MetaData) (s : AmqpClient) (active : Bool)
    (evs : List Callback) :
    unreceive getMetaData s active evs =
      .ok (match s.m_receiver, active with
        | none, _ => (.Rejected, { s with m_promiseReceiver := s.m_promiseReceiver.fresh })
        | some _, false =>
          (.Rejected,
            { s with m_promiseReceiver := s.m_promiseReceiver.fresh, m_subscriptions := ("", none) })
        | some _, true =>
          (if (wait_for getMetaData
                (fun c => c.m_promiseReceiver.ready (s.m_promiseReceiver.gen + 1)) evs
                (unreceiveArmed s)).1 then DeliveryState.Accepted else DeliveryState.Rejected,
            { (wait_for getMetaData
                (fun c => c.m_promiseReceiver.ready (s.m_promiseReceiver.gen + 1)) evs
                (unreceiveArmed s)).2 with m_subscriptions := ("", none) })) := by
  obtain ⟨url, st, cp, ps, pr, conn, recv, m, subs, wq, snt, cc⟩ := s
  cases recv with
  | none => rfl
  | some r =>
    cases active with
    | false => rfl
    | true =>
      simp only [unreceive, Promise.get_future, Promise.fresh, Bool.false_eq_true, if_false,
        if_true, unreceiveArmed]
      split
      · next s3 heq => simp [heq]
      · next s3 heq => simp [heq]

/-! ## Connection state and connection handle -/

/-- A value read from a future is the value its promise holds. -/
theorem Promise.get_ok {α : Type} {p : Promise α} {fut : Nat} {v : α}
    (h : p.get fut = .ok v) : p.value = some v := by
  unfold Promise.get at h
  split at h
  · simp at h
  · cases hv : p.value with
    | none => simp [hv] at h
    | some w =>
      simp only [hv, Except.ok.injEq] at h
      rw [h]

/-- What `connected` does when it returns: either the state was already resolved and
nothing changes, or the client is the one its wait left, with the state possibly
rewritten to the value returned. -/
theorem connected_cases {getMetaData : ProtonMessage → MetaData} {s s1 : AmqpClient}
    {evs : List Callback} {c : ComState}
    (h : connected getMetaData s evs = .ok (c, s1)) :
    (s1 = s ∧ c = s.m_communicationState) ∨
    ∃ s2, s2 = (wait_for getMetaData
          (fun x => x.m_connectPromise.ready s.m_connectPromise.gen) evs
          { s with m_connectPromise := { s.m_connectPromise with retrieved := true } }).2 ∧
      ((s1 = { s2 with m_communicationState := c } ∧
          (s2.m_connectPromise.value = some c ∨ c = .ConnectFailed)) ∨
        (s1 = s2 ∧ c = s2.m_communicationState)) := by
  unfold connected at h
  by_cases hst : s.m_communicationState = .Unknown ∨ s.m_communicationState = .Lost
  · rw [if_pos hst] at h
    by_cases hret : s.m_connectPromise.retrieved = true
    · simp [Promise.get_future, hret] at h
    · simp only [Promise.get_future, hret, Bool.false_eq_true, if_false] at h
      right
      refine ⟨_, rfl, ?_⟩
      revert h
      cases hw : wait_for getMetaData
        (fun c => c.m_connectPromise.ready s.m_connectPromise.gen) evs
        { s with m_connectPromise := { s.m_connectPromise with retrieved := true } } with
      | mk r s2 =>
        intro h
        cases r with
        | true =>
          simp only at h
          cases hg : s2.m_connectPromise.get s.m_connectPromise.gen with
          | ok v =>
            rw [hg] at h
            simp only [Except.ok.injEq, Prod.mk.injEq] at h
            left
            rw [← h.1, ← h.2]
            exact ⟨rfl, Or.inl (Promise.get_ok hg)⟩
          | error x =>
            rw [hg] at h
            simp only [Except.ok.injEq, Prod.mk.injEq] at h
            right
            exact ⟨h.2.symm, h.1.symm⟩
        | false =>
          simp only [Except.ok.injEq, Prod.mk.injEq] at h
          left
          rw [← h.1, ← h.2]
          exact ⟨rfl, Or.inr rfl⟩
  · rw [if_neg hst] at h
    simp only [Except.ok.injEq, Prod.mk.injEq] at h
    left
    exact ⟨h.2.symm, h.1.symm⟩

/-- The value `connected` returns is the state it leaves. -/
theorem connected_state {getMetaData : ProtonMessage → MetaData} {s s1 : AmqpClient}
    {evs : List Callback} {c : ComState}
    (h : connected getMetaData s evs = .ok (c, s1)) : s1.m_communicationState = c := by
  rcases connected_cases h with ⟨h1, h2⟩ | ⟨s2, _, ⟨h1, _⟩ | ⟨h1, h2⟩⟩
  · rw [h1, h2]
  · rw [h1]
  · rw [h1, h2]

/-- The function `connected` keeps the link between state and handle. -/
theorem connected_connInv {getMetaData : ProtonMessage → MetaData} {s s1 : AmqpClient}
    {evs : List Callback} {c : ComState}
    (h : connected getMetaData s evs = .ok (c, s1)) (hi : ConnInv s) : ConnInv s1 := by
  have h0 : ConnInv { s with m_connectPromise := { s.m_connectPromise with retrieved := true } } :=
    fun hc => hi hc
  rcases connected_cases h with ⟨h1, _⟩ | ⟨s2, hs2, ⟨h1, h2⟩ | ⟨h1, _⟩⟩
  · rw [h1]
    exact hi
  · have hi2 : ConnInv s2 := by
      rw [hs2]
      exact wait_for_connInv getMetaData _ evs _ h0
    rw [h1]
    intro hc
    rcases hc with hc | hc
    · rcases h2 with h2 | h2
      · simp only at hc
        rw [hc] at h2
        exact hi2 (Or.inr h2)
      · simp only at hc
        rw [hc] at h2
        cases h2
    · exact hi2 (Or.inr hc)
  · rw [h1, hs2]
    exact wait_for_connInv getMetaData _ evs _ h0

/-- When `connected` answers `Connected` the connection handle is recorded. -/
theorem connected_connection {getMetaData : ProtonMessage → MetaData} {s sc : AmqpClient}
    {evs : List Callback}
    (h : connected getMetaData s evs = .ok (.Connected, sc)) (hi : ConnInv s) :
    sc.m_connection.isSome = true :=
  connected_connInv h hi (Or.inl (connected_state h))

/-- The function `setSubscriptions` keeps the link between state and handle. -/
theorem setSubscriptions_connInv (s : AmqpClient) (address : String) (l : MessageListener)
    (hi : ConnInv s) : ConnInv (s.setSubscriptions address l) := by
  rw [setSubscriptions_eq]
  exact fun hc => hi hc

/-- The function `send` keeps the link between state and handle. -/
theorem send_connInv {getMetaData : ProtonMessage → MetaData} {s s1 : AmqpClient}
    {msg : ProtonMessage} {evsC evsS : List Callback} {d : DeliveryState}
    (h : send getMetaData s msg evsC evsS = .ok (d, s1)) (hi : ConnInv s) : ConnInv s1 := by
  cases hc : connected getMetaData s evsC with
  | error x => simp [send, hc] at h
  | ok r =>
    obtain ⟨c, sc⟩ := r
    have hsc : ConnInv sc := connected_connInv hc hi
    by_cases hcon : c = .Connected
    · subst hcon
      rw [send_connected hc] at h
      simp only [Except.ok.injEq, Prod.mk.injEq] at h
      rw [← h.2]
      exact wait_for_connInv getMetaData _ evsS _ (fun x => hsc x)
    · simp only [send, hc, hcon, if_false, Except.ok.injEq, Prod.mk.injEq] at h
      rw [← h.2]
      exact hsc

/-- The function `receive` keeps the link between state and handle. -/
theorem receive_connInv {getMetaData : ProtonMessage → MetaData} {s s1 : AmqpClient}
    {address filter : String} {l : MessageListener} {evsC evsR : List Callback}
    {d : DeliveryState}
    (h : receive getMetaData s address filter l evsC evsR = .ok (d, s1)) (hi : ConnInv s) :
    ConnInv s1 := by
  cases hc : connected getMetaData s evsC with
  | error x => simp [receive, hc] at h
  | ok r =>
    obtain ⟨c, sc⟩ := r
    have hsc : ConnInv sc := connected_connInv hc hi
    by_cases hcon : c = .Connected
    · subst hcon
      rw [receive_connected hc] at h
      simp only [Except.ok.injEq, Prod.mk.injEq] at h
      rw [← h.2]
      apply wait_for_connInv
      unfold receiveArmed
      by_cases hf : filter.isEmpty = true
      · simp only [hf, Bool.not_true, Bool.false_eq_true, if_false]
        have h3 := setSubscriptions_connInv
          { sc with m_promiseReceiver := sc.m_promiseReceiver.fresh } address l (fun x => hsc x)
        exact fun x => h3 x
      · simp only [hf, Bool.not_false, if_true]
        have h3 := setSubscriptions_connInv
          { sc with m_promiseReceiver := sc.m_promiseReceiver.fresh } filter l (fun x => hsc x)
        exact fun x => h3 x
    · simp only [receive, hc, hcon, if_false, Except.ok.injEq, Prod.mk.injEq] at h
      rw [← h.2]
      exact hsc

/-- The function `unreceive` keeps the link between state and handle. -/
theorem unreceive_connInv {getMetaData : ProtonMessage → MetaData} {s s1 : AmqpClient}
    {active : Bool} {evs : List Callback} {d : DeliveryState}
    (h : unreceive getMetaData s active evs = .ok (d, s1)) (hi : ConnInv s) : ConnInv s1 := by
  rw [unreceive_eq] at h
  simp only [Except.ok.injEq] at h
  cases hr : s.m_receiver with
  | none =>
    rw [hr] at h
    simp only [Prod.mk.injEq] at h
    rw [← h.2]
    exact fun x => hi x
  | some r =>
    rw [hr] at h
    cases active with
    | false =>
      simp only [Prod.mk.injEq] at h
      rw [← h.2]
      exact fun x => hi x
    | true =>
      simp only [Prod.mk.injEq] at h
      have h3 := wait_for_connInv getMetaData
        (fun c => c.m_promiseReceiver.ready (s.m_promiseReceiver.gen + 1)) evs
        (unreceiveArmed s) (fun x => hi x)
      rw [← h.2]
      exact fun x => h3 x

/-- The function `close` keeps the link between state and handle. -/
theorem close_connInv {getMetaData : ProtonMessage → MetaData} {s s1 : AmqpClient}
    {receiverActive connectionActive : Bool} {evs : List Callback} {d : DeliveryState}
    (h : close getMetaData s receiverActive evs connectionActive = .ok (d, s1))
    (hi : ConnInv s) : ConnInv s1 := by
  unfold close at h
  cases hu : unreceive getMetaData s receiverActive evs with
  | error x => simp [hu] at h
  | ok r =>
    obtain ⟨d1, su⟩ := r
    have hsu : ConnInv su := unreceive_connInv hu hi
    simp only [hu] at h
    split at h
    · simp only [Except.ok.injEq, Prod.mk.injEq] at h
      rw [← h.2]
      exact fun x => hsu x
    · simp only [Except.ok.injEq, Prod.mk.injEq] at h
      rw [← h.2]
      exact hsu

/-- In every state of a run, a state `Connected` or a connect promise holding
`Connected` comes with a recorded connection handle. -/
theorem reachable_connInv {getMetaData : ProtonMessage → MetaData} {s : AmqpClient}
    (h : Reachable getMetaData s) : ConnInv s := by
  induction h with
  | create url =>
    intro hc
    rcases hc with hc | hc
    · simp [create] at hc
    · simp [create, Promise.initial] at hc
  | callback e _ hf ih =>
    have := fire_connInv getMetaData _ e ih
    rw [hf] at this
    exact this
  | callback_raised e x _ hf ih =>
    have := fire_connInv getMetaData _ e ih
    rw [hf] at this
    exact this
  | connected evs r _ hc ih => exact connected_connInv hc ih
  | send msg evsC evsS d _ hs ih => exact send_connInv hs ih
  | receive address filter l evsC evsR d _ hr ih => exact receive_connInv hr ih
  | unreceive active evs d _ hu ih => exact unreceive_connInv hu ih
  | close ra evs ca d _ hcl ih => exact close_connInv hcl ih
  | setSubscriptions address l _ ih => exact setSubscriptions_connInv _ address l ih

/-- After a `receive` on a client of a run that `connected` found `Connected`, the
connection handle is recorded. -/
theorem receive_connection {getMetaData : ProtonMessage → MetaData} {s sc s1 : AmqpClient}
    {evsC evsR : List Callback} {address filter : String} {l : MessageListener}
    {d : DeliveryState} (hreach : Reachable getMetaData s)
    (hc : connected getMetaData s evsC = .ok (.Connected, sc))
    (hrecv : receive getMetaData s address filter l evsC evsR = .ok (d, s1)) :
    s1.m_connection.isSome = true := by
  have hsc : sc.m_connection.isSome = true := connected_connection hc (reachable_connInv hreach)
  rw [receive_connected hc] at hrecv
  simp only [Except.ok.injEq, Prod.mk.injEq] at hrecv
  rw [← hrecv.2]
  apply wait_for_connection
  unfold receiveArmed
  by_cases hf : filter.isEmpty = true
  · simp only [hf, Bool.not_true, Bool.false_eq_true, if_false]
    rw [setSubscriptions_eq]
    exact hsc
  · simp only [hf, Bool.not_false, if_true]
    rw [setSubscriptions_eq]
    exact hsc

/-- The slot that `receive` leaves is the one written before the wait. -/
theorem receive_slot {getMetaData : ProtonMessage → MetaData} {s sc s1 : AmqpClient}
    {evsC evsR : List Callback} {address filter : String} {l : MessageListener}
    {d : DeliveryState}
    (hc : connected getMetaData s evsC = .ok (.Connected, sc))
    (hrecv : receive getMetaData s address filter l evsC evsR = .ok (d, s1)) :
    s1.m_subscriptions = (receiveArmed sc address filter l).m_subscriptions := by
  rw [receive_connected hc] at hrecv
  simp only [Except.ok.injEq, Prod.mk.injEq] at hrecv
  rw [← hrecv.2]
  exact (wait_for_frame getMetaData _ evsR _).1

/-- The slot written by `receive` when the filter is not empty. -/
theorem receiveArmed_filter (sc : AmqpClient) (address filter : String) (l : Nat)
    (hf : filter ≠ "") :
    (receiveArmed sc address filter (some l)).m_subscriptions = (filter, some l) := by
  simp [receiveArmed, isEmpty_eq_decide, hf, setSubscriptions]

/-- The slot written by `receive` when the filter is empty and the address is not. -/
theorem receiveArmed_address (sc : AmqpClient) (address : String) (l : Nat)
    (ha : address ≠ "") :
    (receiveArmed sc address "" (some l)).m_subscriptions = (address, some l) := by
  simp [receiveArmed, isEmpty_eq_decide, ha, setSubscriptions]

/-- On an open connection, a message whose routing key is the key of the slot is handed
to the listener of the slot, once. -/
theorem on_message_match (getMetaData : ProtonMessage → MetaData) (s : AmqpClient)
    (msg : ProtonMessage) (k : String) (l : Nat)
    (hconn : s.m_connection.isSome = true) (hslot : s.m_subscriptions = (k, some l))
    (hk : k ≠ "") (hkey : on_message_key msg = k) :
    on_message getMetaData s msg =
      { s with work_queue :=
          s.work_queue ++ [Work.listener (some l) (on_message_amqpMsg getMetaData msg)] } := by
  unfold on_message
  simp [hconn, hslot, hkey, isEmpty_eq_decide, hk]

/-- The routing key of a message without correlation id is its address. -/
theorem on_message_key_direct (msg : ProtonMessage) (h : msg.correlation_id = none) :
    on_message_key msg = msg.address := by
  simp [on_message_key, h]

/-- The routing key of a message with a correlation id and no reply-to is that id. -/
theorem on_message_key_reply (msg : ProtonMessage) (c : String)
    (h : msg.correlation_id = some c) (hr : msg.reply_to = "") :
    on_message_key msg = c := by
  simp [on_message_key, h, hr, isEmpty_eq_decide]

/-- The example client `connectedClient` is a state of a run: a new client, the
callback `on_connection_open`, then `connected()`. -/
theorem connectedClient_reachable : Reachable noMetaData connectedClient :=
  Reachable.connected [] .Connected
    (Reachable.callback (Callback.on_connection_open { reconnected := false })
      (Reachable.create "amqp://127.0.0.1:5672") rfl)
    rfl

/-! ## Publish and subscribe, request and reply -/

/-- C3, a case where it fails: the topic is the empty string.  `receive("", "", L)` on
the connected client, whether the receiver opens (`Accepted`) or not (`Rejected`),
leaves no subscription because `setSubscriptions` refuses the empty key; a message
addressed to the empty topic with body `RESPONSE` then leaves the client as it was,
so `L` is not scheduled. -/
theorem C3_empty_topic_counterexample :
    (∃ s1, receive noMetaData connectedClient "" "" (some 1) []
          [Callback.on_receiver_open { address := "" }] = .ok (.Accepted, s1) ∧
      s1.m_connection.isSome = true ∧
      on_message noMetaData s1
          { ProtonMessage.empty with address := "", body := some "RESPONSE" } = s1) ∧
    (∃ s1, receive noMetaData connectedClient "" "" (some 1) [] [] = .ok (.Rejected, s1) ∧
      s1.m_connection.isSome = true ∧
      on_message noMetaData s1
          { ProtonMessage.empty with address := "", body := some "RESPONSE" } = s1) :=
  ⟨⟨_, rfl, rfl, rfl⟩, ⟨_, rfl, rfl, rfl⟩⟩

/-- C3, amended.  For every topic `T` other than the empty string and every body `B`:
once a client of a run, found `Connected` by `connected()`, has called
`receive(T, "", L)` with a listener `L` that is present, a message with address `T`, no
correlation id and body `B` adds exactly one unit to the work queue, the call of `L`
with a message whose user data is `B`; nothing else changes.  This holds whether the
wait of `receive` ended in `Accepted` or in `Rejected`. -/
theorem C3_subscribed_topic_delivery (getMetaData : ProtonMessage → MetaData)
    (s sc s1 : AmqpClient) (T B : String) (l : Nat) (evsC evsR : List Callback)
    (d : DeliveryState) (msg : ProtonMessage)
    (hT : T ≠ "")
    (hreach : Reachable getMetaData s)
    (hc : connected getMetaData s evsC = .ok (.Connected, sc))
    (hrecv : receive getMetaData s T "" (some l) evsC evsR = .ok (d, s1))
    (haddr : msg.address = T) (hcorr : msg.correlation_id = none)
    (hbody : msg.body = some B) :
    on_message getMetaData s1 msg =
      { s1 with work_queue := s1.work_queue ++
          [Work.listener (some l) { metaData := getMetaData msg, userData := B }] } := by
  have hconn : s1.m_connection.isSome = true := receive_connection hreach hc hrecv
  have hslot : s1.m_subscriptions = (T, some l) := by
    rw [receive_slot hc hrecv, receiveArmed_address sc T l hT]
  have hkey : on_message_key msg = T := by
    rw [on_message_key_direct msg hcorr, haddr]
  rw [on_message_match getMetaData s1 msg T l hconn hslot hT hkey]
  simp [on_message_amqpMsg, hbody]

/-- A run of C3 amended, the scenario of the publish and subscribe test: topic
`/topicTest`, body `RESPONSE`. -/
theorem C3_subscribed_topic_delivery_witness :
    on_message noMetaData subscribedClient
        { ProtonMessage.empty with address := "/topicTest", body := some "RESPONSE" } =
      { subscribedClient with work_queue := subscribedClient.work_queue ++
          [Work.listener (some 1) { metaData := [], userData := "RESPONSE" }] } :=
  C3_subscribed_topic_delivery noMetaData connectedClient connectedClient subscribedClient
    "/topicTest" "RESPONSE" 1 [] [Callback.on_receiver_open { address := "/topicTest" }]
    .Accepted { ProtonMessage.empty with address := "/topicTest", body := some "RESPONSE" }
    (by decide) connectedClient_reachable rfl rfl rfl rfl rfl

/-- The routing key of a message that carries a reply-to is its address, whatever its
correlation id. -/
theorem on_message_key_with_reply_to (msg : ProtonMessage) (hr : msg.reply_to ≠ "") :
    on_message_key msg = msg.address := by
  simp [on_message_key, isEmpty_eq_decide, hr]

/-- C4, two cases where it fails.  First run: the correlation id is the empty text.  A
`receive` with filter `""` registers the listener under the address `/replyQueue`
instead, and the reply that arrives there carrying the correlation id `""` and no
reply-to has the routing key `""`: it is dropped and `L` is not scheduled.  Second
run: the listener is registered with filter `1234`; a message that carries the other
correlation id `9999`, a reply-to `/q` and the address `1234` is routed by its address,
so `L` is scheduled for it. -/
theorem C4_counterexample :
    (∃ s1, receive noMetaData connectedClient "/replyQueue" "" (some 2) []
          [Callback.on_receiver_open { address := "/replyQueue" }] = .ok (.Accepted, s1) ∧
      s1.m_connection.isSome = true ∧
      s1.m_subscriptions = ("/replyQueue", some 2) ∧
      on_message noMetaData s1
          { ProtonMessage.empty with
            address := "/replyQueue", correlation_id := some "", body := some "QUERYOK" } = s1) ∧
    (receive noMetaData connectedClient "/replyQueue" "1234" (some 2) []
          [Callback.on_receiver_open { address := "/replyQueue" }]
        = .ok (.Accepted, requesterClient) ∧
      on_message noMetaData requesterClient
          { ProtonMessage.empty with
            address := "1234", correlation_id := some "9999", reply_to := "/q",
            body := some "QUERY" }
        = { requesterClient with work_queue := requesterClient.work_queue ++
            [Work.listener (some 2) { metaData := [], userData := "QUERY" }] }) :=
  ⟨⟨_, rfl, rfl, rfl, rfl⟩, ⟨rfl, rfl⟩⟩

/-- C4, amended.  For every correlation id `C` other than the empty text: once a client
of a run, found `Connected` by `connected()`, has called `receive(address, C, L)` with
a listener `L` that is present, a message with correlation id `C` and an empty reply-to
adds exactly one unit to the work queue, the call of `L` with a message whose user data
is the text of the body.  A message with any other correlation id changes nothing, so
`L` is not scheduled for it, unless it carries a reply-to and its address is `C`: such
a message is routed by its address and `L` is scheduled for it. -/
theorem C4_reply_correlation (getMetaData : ProtonMessage → MetaData)
    (s sc s1 : AmqpClient) (address C : String) (l : Nat) (evsC evsR : List Callback)
    (d : DeliveryState) (reply : ProtonMessage)
    (hC : C ≠ "")
    (hreach : Reachable getMetaData s)
    (hc : connected getMetaData s evsC = .ok (.Connected, sc))
    (hrecv : receive getMetaData s address C (some l) evsC evsR = .ok (d, s1)) :
    (reply.correlation_id = some C → reply.reply_to = "" →
      on_message getMetaData s1 reply =
        { s1 with work_queue := s1.work_queue ++
            [Work.listener (some l)
              { metaData := getMetaData reply, userData := reply.body.getD "" }] }) ∧
    (∀ C2, reply.correlation_id = some C2 → C2 ≠ C →
      (reply.reply_to = "" ∨ reply.address ≠ C) →
      on_message getMetaData s1 reply = s1) ∧
    (∀ C2, reply.correlation_id = some C2 → C2 ≠ C →
      reply.reply_to ≠ "" → reply.address = C →
      on_message getMetaData s1 reply =
        { s1 with work_queue := s1.work_queue ++
            [Work.listener (some l)
              { metaData := getMetaData reply, userData := reply.body.getD "" }] }) := by
  have hconn : s1.m_connection.isSome = true := receive_connection hreach hc hrecv
  have hslot : s1.m_subscriptions = (C, some l) := by
    rw [receive_slot hc hrecv, receiveArmed_filter sc address C l hC]
  refine ⟨?_, ?_, ?_⟩
  · intro hid hreply
    rw [on_message_match getMetaData s1 reply C l hconn hslot hC
      (on_message_key_reply reply C hid hreply)]
    cases hb : reply.body <;> simp [on_message_amqpMsg, hb]
  · intro C2 hid hne hcase
    refine on_message_unmatched getMetaData s1 reply (Or.inl ?_)
    rw [hslot]
    by_cases hreply : reply.reply_to = ""
    · rw [on_message_key_reply reply C2 hid hreply]
      exact hne
    · rw [on_message_key_with_reply_to reply hreply]
      rcases hcase with h | h
      · exact absurd h hreply
      · exact h
  · intro C2 _ _ hreply haddr
    rw [on_message_match getMetaData s1 reply C l hconn hslot hC
      ((on_message_key_with_reply_to reply hreply).trans haddr)]
    cases hb : reply.body <;> simp [on_message_amqpMsg, hb]

/-- Two runs of C4 amended, the scenario of the request test: the requester waits for
the reply correlated by `1234`; the reply body `QUERYOK` reaches listener 2 unchanged,
and a reply correlated by `9999` is dropped. -/
theorem C4_reply_correlation_witness :
    on_message noMetaData requesterClient
        { ProtonMessage.empty with
          address := "/replyQueue", correlation_id := some "1234", body := some "QUERYOK" } =
      { requesterClient with work_queue := requesterClient.work_queue ++
          [Work.listener (some 2) { metaData := [], userData := "QUERYOK" }] } ∧
    on_message noMetaData requesterClient
        { ProtonMessage.empty with
          address := "/replyQueue", correlation_id := some "9999", body := some "QUERYOK" } =
      requesterClient :=
  ⟨(C4_reply_correlation noMetaData connectedClient connectedClient requesterClient
      "/replyQueue" "1234" 2 [] [Callback.on_receiver_open { address := "/replyQueue" }]
      .Accepted
      { ProtonMessage.empty with
        address := "/replyQueue", correlation_id := some "1234", body := some "QUERYOK" }
      (by decide) connectedClient_reachable rfl rfl).1 rfl rfl,
    (C4_reply_correlation noMetaData connectedClient connectedClient requesterClient
      "/replyQueue" "1234" 2 [] [Callback.on_receiver_open { address := "/replyQueue" }]
      .Accepted
      { ProtonMessage.empty with
        address := "/replyQueue", correlation_id := some "9999", body := some "QUERYOK" }
      (by decide) connectedClient_reachable rfl rfl).2.1 "9999" rfl (by decide)
      (Or.inl rfl)⟩

/-! ## Operations on a client that is not connected -/

/-- C5. When `connected()` yields a value other than `Connected` and leaves the client
`s1`, both `send` and `receive` return `Rejected` and leave exactly `s1`: they add
nothing to the work queue.  With respect to the client before the call the stored
outgoing message and the subscription slot are the same, and the work queue holds at
most some more listener calls, put there by `on_message` callbacks that ran during the
wait inside `connected()`; no open-sender or open-receiver unit is added. -/
theorem C5_not_connected_rejected (getMetaData : ProtonMessage → MetaData)
    (s s1 : AmqpClient) (c : ComState) (msg : ProtonMessage) (address filter : String)
    (l : MessageListener) (evsC evsS evsR : List Callback)
    (hc : connected getMetaData s evsC = .ok (c, s1)) (hne : c ≠ .Connected) :
    send getMetaData s msg evsC evsS = .ok (.Rejected, s1) ∧
    receive getMetaData s address filter l evsC evsR = .ok (.Rejected, s1) ∧
    s1.m_message = s.m_message ∧
    s1.m_subscriptions = s.m_subscriptions ∧
    ∃ extra, s1.work_queue = s.work_queue ++ extra ∧ ∀ w ∈ extra, w.isListener = true := by
  obtain ⟨hs, hm, hq⟩ := connected_frame hc
  refine ⟨?_, ?_, hm, hs, hq⟩
  · unfold send
    rw [hc]
    simp [hne]
  · unfold receive
    rw [hc]
    simp [hne]

/-- A run of C5: a new client whose connection never opens; `connected()` times out
with `ConnectFailed` and `send` is rejected without any work unit. -/
theorem C5_not_connected_rejected_witness :
    send noMetaData (create "amqp://127.0.0.1:5672")
        { ProtonMessage.empty with address := "/topicTest", body := some "RESPONSE" } [] [] =
      .ok (.Rejected,
        { create "amqp://127.0.0.1:5672" with
          m_communicationState := .ConnectFailed
          m_connectPromise := { gen := 0, value := none, retrieved := true } }) :=
  (C5_not_connected_rejected noMetaData (create "amqp://127.0.0.1:5672")
    { create "amqp://127.0.0.1:5672" with
      m_communicationState := .ConnectFailed
      m_connectPromise := { gen := 0, value := none, retrieved := true } }
    .ConnectFailed
    { ProtonMessage.empty with address := "/topicTest", body := some "RESPONSE" }
    "/topicTest" "" (some 1) [] [] [] rfl (by decide)).1

/-! ## Sending -/

/-- C6, the run where the code departs from the claim.  A connected client sends; while
it waits the transport fails and reconnects, so `on_connection_open` with
`reconnected` runs `resetPromise`.  No sender-open callback is delivered and nothing
is handed to a sender, yet `send` returns `Accepted`: reassigning the send promise
abandons the shared state of the awaited future, which makes that future ready. -/
theorem C6_reconnect_during_send_accepted :
    ∃ s1, send noMetaData connectedClient
          { ProtonMessage.empty with address := "/topicTest", body := some "RESPONSE" } []
          [Callback.on_transport_error "connection lost",
            Callback.on_connection_open { reconnected := true }] = .ok (.Accepted, s1) ∧
      s1.sent = [] ∧ s1.m_promiseSender.value = none :=
  ⟨_, rfl, rfl, rfl⟩

/-! ## The subscription slot -/

/-- C7. On a connected client, `receive(address, filter, listener)` with a listener
that is present returns, and the slot then holds the listener under `filter` when
`filter` is not empty, and under `address` when `filter` is empty and `address` is
not; this holds whether the wait ends in `Accepted` or in `Rejected`. -/
theorem C7_receive_registers (getMetaData : ProtonMessage → MetaData) (s sc : AmqpClient)
    (address filter : String) (l : Nat) (evsC evsR : List Callback)
    (hc : connected getMetaData s evsC = .ok (.Connected, sc)) :
    ∃ d s1, receive getMetaData s address filter (some l) evsC evsR = .ok (d, s1) ∧
      (filter ≠ "" → s1.m_subscriptions = (filter, some l)) ∧
      (filter = "" → address ≠ "" → s1.m_subscriptions = (address, some l)) := by
  refine ⟨_, _, receive_connected hc address filter (some l) evsR, ?_, ?_⟩
  · intro hf
    rw [(wait_for_frame getMetaData _ evsR _).1]
    exact receiveArmed_filter sc address filter l hf
  · intro hf ha
    rw [(wait_for_frame getMetaData _ evsR _).1, hf]
    exact receiveArmed_address sc address l ha

/-- A run of C7: `receive("/replyQueue", "1234", listener 2)` whose receiver never
opens is rejected, and the slot holds listener 2 under the filter `1234`. -/
theorem C7_receive_registers_witness :
    ∃ d s1, receive noMetaData connectedClient "/replyQueue" "1234" (some 2) [] [] = .ok (d, s1) ∧
      ("1234" ≠ "" → s1.m_subscriptions = ("1234", some 2)) ∧
      ("1234" = "" → "/replyQueue" ≠ "" → s1.m_subscriptions = ("/replyQueue", some 2)) :=
  C7_receive_registers noMetaData connectedClient connectedClient "/replyQueue" "1234" 2 [] [] rfl

/-- C8. Called with an empty key or with an absent listener, `setSubscriptions` returns
the client as it was; it is a total function, so it does not fail. -/
theorem C8_setSubscriptions_rejects (s : AmqpClient) (address : String) (l : MessageListener)
    (h : address = "" ∨ l = none) :
    s.setSubscriptions address l = s ∧
      (s.setSubscriptions address l).m_subscriptions = s.m_subscriptions := by
  have key : s.setSubscriptions address l = s := by
    unfold setSubscriptions
    rcases h with h | h
    · simp [h, isEmpty_eq_decide]
    · simp [h]
  rw [key]
  exact ⟨rfl, rfl⟩

/-- A run of C8: an empty key does not displace the subscription to `/topicTest`. -/
theorem C8_setSubscriptions_rejects_witness :
    subscribedClient.setSubscriptions "" (some 5) = subscribedClient :=
  (C8_setSubscriptions_rejects subscribedClient "" (some 5) (Or.inl rfl)).1

/-- C9. After two valid registrations `(k1, l1)` then `(k2, l2)` with different keys,
the slot holds `(k2, l2)` only.  On the open connection a message whose routing key is
`k1` is dropped, the client staying as it was, and a message whose routing key is `k2`
adds exactly one unit to the work queue, the call of `l2`. -/
theorem C9_second_registration_replaces (getMetaData : ProtonMessage → MetaData)
    (s : AmqpClient) (k1 k2 : String) (l1 l2 : Nat) (msg : ProtonMessage)
    (hk1 : k1 ≠ "") (hk2 : k2 ≠ "") (hne : k1 ≠ k2)
    (hconn : s.m_connection.isSome = true) :
    ((s.setSubscriptions k1 (some l1)).setSubscriptions k2 (some l2)).m_subscriptions
        = (k2, some l2) ∧
    (on_message_key msg = k1 →
      on_message getMetaData ((s.setSubscriptions k1 (some l1)).setSubscriptions k2 (some l2)) msg
        = (s.setSubscriptions k1 (some l1)).setSubscriptions k2 (some l2)) ∧
    (on_message_key msg = k2 →
      on_message getMetaData ((s.setSubscriptions k1 (some l1)).setSubscriptions k2 (some l2)) msg
        = { (s.setSubscriptions k1 (some l1)).setSubscriptions k2 (some l2) with
            work_queue :=
              ((s.setSubscriptions k1 (some l1)).setSubscriptions k2 (some l2)).work_queue ++
                [Work.listener (some l2) (on_message_amqpMsg getMetaData msg)] }) := by
  rw [setSubscriptions_valid s k1 l1 hk1, setSubscriptions_valid _ k2 l2 hk2]
  refine ⟨rfl, ?_, ?_⟩
  · intro hkey
    apply on_message_unmatched
    left
    rw [hkey]
    exact hne
  · intro hkey
    exact on_message_match getMetaData _ msg k2 l2 hconn rfl hk2 hkey

/-- A run of C9: `/topicTest` with listener 1 is replaced by `/other` with listener 3;
a message for `/topicTest` is then dropped. -/
theorem C9_second_registration_replaces_witness :
    on_message noMetaData
        ((connectedClient.setSubscriptions "/topicTest" (some 1)).setSubscriptions "/other" (some 3))
        { ProtonMessage.empty with address := "/topicTest", body := some "RESPONSE" }
      = (connectedClient.setSubscriptions "/topicTest" (some 1)).setSubscriptions "/other" (some 3) :=
  (C9_second_registration_replaces noMetaData connectedClient "/topicTest" "/other" 1 3
    { ProtonMessage.empty with address := "/topicTest", body := some "RESPONSE" }
    (by decide) (by decide) (by decide) rfl).2.1 rfl

/-- C10, a case where it fails: no receiver handle is recorded.  A `receive` whose
receiver never opens is rejected but leaves its subscription in the slot; the
`unreceive` that follows skips the block guarded by `m_receiver` and the slot still
holds the subscription. -/
theorem C10_no_receiver_counterexample :
    ∃ s1 s2, receive noMetaData connectedClient "/topicTest" "" (some 1) [] []
          = .ok (.Rejected, s1) ∧
      unreceive noMetaData s1 true [] = .ok (.Rejected, s2) ∧
      s2.m_subscriptions = ("/topicTest", some 1) :=
  ⟨_, _, rfl, rfl, rfl⟩

/-- C10, amended.  For every client state in which a receiver handle is recorded,
`unreceive()` returns and the slot is then empty, whether the receiver is active or
not and whether or not the receiver-close event arrives before `TIMEOUT`. -/
theorem C10_unreceive_clears (getMetaData : ProtonMessage → MetaData) (s : AmqpClient)
    (r : Receiver) (active : Bool) (evs : List Callback)
    (hr : s.m_receiver = some r) :
    ∃ d s1, unreceive getMetaData s active evs = .ok (d, s1) ∧
      s1.m_subscriptions = ("", none) := by
  refine ⟨_, _, unreceive_eq getMetaData s active evs, ?_⟩
  rw [hr]
  cases active <;> rfl

/-- A run of C10 amended: the subscribed client closes its active receiver and the
close event does not arrive; the slot is empty all the same. -/
theorem C10_unreceive_clears_witness :
    ∃ d s1, unreceive noMetaData subscribedClient true [] = .ok (d, s1) ∧
      s1.m_subscriptions = ("", none) :=
  C10_unreceive_clears noMetaData subscribedClient { address := "/topicTest" } true [] rfl

/-! ## The connection state -/

/-- A property kept by every callback of a given kind is kept by a wait during which
only callbacks of that kind are delivered. -/
theorem wait_for_preserves_on (getMetaData : ProtonMessage → MetaData) (P : AmqpClient → Prop)
    (Q : Callback → Prop)
    (hstep : ∀ s e, Q e → P s →
      match fire getMetaData s e with
      | .ok c => P c
      | .error (_, c) => P c)
    (isReady : AmqpClient → Bool) (evs : List Callback) (hall : ∀ e ∈ evs, Q e)
    (s : AmqpClient) (h : P s) :
    P (wait_for getMetaData isReady evs s).2 := by
  induction evs generalizing s with
  | nil => exact h
  | cons e es ih =>
    unfold wait_for
    by_cases hr : isReady s = true
    · simp only [hr, if_true]
      exact h
    · simp only [hr]
      have hf := hstep s e (hall e (List.mem_cons_self e es)) h
      have hes : ∀ x ∈ es, Q x := fun x hx => hall x (List.mem_cons_of_mem e hx)
      cases hfe : fire getMetaData s e with
      | ok c =>
        rw [hfe] at hf
        exact ih hes c hf
      | error x =>
        obtain ⟨x1, c⟩ := x
        rw [hfe] at hf
        exact hf

/-- The result of a wait tells whether the awaited future is ready in the client the
wait leaves. -/
theorem wait_for_fst (getMetaData : ProtonMessage → MetaData) (isReady : AmqpClient → Bool)
    (evs : List Callback) (s : AmqpClient) :
    (wait_for getMetaData isReady evs s).1 = isReady (wait_for getMetaData isReady evs s).2 := by
  induction evs generalizing s with
  | nil => rfl
  | cons e es ih =>
    unfold wait_for
    by_cases hr : isReady s = true
    · simp only [hr, if_true]
    · simp only [hr]
      cases hfe : fire getMetaData s e with
      | ok c => exact ih c
      | error x =>
        obtain ⟨x1, c⟩ := x
        rfl

/-- A wait on a future that is ready already returns at once, whatever callbacks are
pending. -/
theorem wait_for_ready_now (getMetaData : ProtonMessage → MetaData)
    (isReady : AmqpClient → Bool) (evs : List Callback) (s : AmqpClient)
    (h : isReady s = true) :
    wait_for getMetaData isReady evs s = (true, s) := by
  cases evs with
  | nil => simp [wait_for, h]
  | cons e es => simp [wait_for, h]

/-- A future is not ready while its promise is the one it was taken from and holds no
value. -/
theorem Promise.ready_pending {α : Type} {p : Promise α} {fut : Nat}
    (hg : p.gen = fut) (hv : p.value = none) : p.ready fut = false := by
  simp [Promise.ready, hg, hv]

/-- Only `on_transport_error` writes the connection state: any other callback,
returning or raising, leaves it as it was. -/
theorem fire_state (getMetaData : ProtonMessage → MetaData) (s : AmqpClient) (e : Callback)
    (he : e.isTransportError = false) :
    match fire getMetaData s e with
    | .ok c => c.m_communicationState = s.m_communicationState
    | .error (_, c) => c.m_communicationState = s.m_communicationState := by
  cases e with
  | on_container_start t =>
    cases t
    · simp only [fire, on_container_start, Bool.false_eq_true, if_false]
    · by_cases hv : s.m_connectPromise.value.isSome = true
      · simp only [fire, on_container_start, Promise.set_value, hv, if_true]
      · simp only [fire, on_container_start, Promise.set_value, hv, if_true, Bool.false_eq_true,
          if_false]
  | on_connection_open c =>
    obtain ⟨b⟩ := c
    cases b
    · by_cases hv : s.m_connectPromise.value.isSome = true
      · simp only [fire, on_connection_open, Promise.set_value, hv, if_true, Bool.false_eq_true,
          if_false]
      · simp only [fire, on_connection_open, Promise.set_value, hv, if_true, Bool.false_eq_true,
          if_false]
    · simp only [fire, on_connection_open, Promise.set_value, resetPromise, Promise.fresh,
        if_true, Option.isSome_none, Bool.false_eq_true, if_false]
  | on_sender_open sn =>
    by_cases hv : s.m_promiseSender.value.isSome = true
    · simp only [fire, on_sender_open, Promise.set_value, hv, if_true]
    · simp only [fire, on_sender_open, Promise.set_value, hv, if_true, Bool.false_eq_true, if_false]
  | on_receiver_open r =>
    by_cases hv : s.m_promiseReceiver.value.isSome = true
    · simp only [fire, on_receiver_open, Promise.set_value, hv, if_true]
    · simp only [fire, on_receiver_open, Promise.set_value, hv, if_true, Bool.false_eq_true,
        if_false]
  | on_receiver_close r =>
    by_cases hv : s.m_promiseReceiver.value.isSome = true
    · simp only [fire, on_receiver_close, Promise.set_value, hv, if_true]
    · simp only [fire, on_receiver_close, Promise.set_value, hv, if_true, Bool.false_eq_true,
        if_false]
  | on_error w => rfl
  | on_transport_error w => simp [Callback.isTransportError] at he
  | on_message m =>
    simp only [fire]
    rw [on_message_eq]

/-- A wait during which no transport error is delivered leaves the connection state
as it was. -/
theorem wait_for_state (getMetaData : ProtonMessage → MetaData) (isReady : AmqpClient → Bool)
    (evs : List Callback) (hall : quietCallbacks evs) (s : AmqpClient) :
    (wait_for getMetaData isReady evs s).2.m_communicationState = s.m_communicationState :=
  wait_for_preserves_on getMetaData
    (fun c => c.m_communicationState = s.m_communicationState)
    (fun e => e.isTransportError = false)
    (fun a e he ha => by
      have h := fire_state getMetaData a e he
      cases hf : fire getMetaData a e with
      | ok c =>
        rw [hf] at h
        exact h.trans ha
      | error x =>
        obtain ⟨x1, c⟩ := x
        rw [hf] at h
        exact h.trans ha)
    isReady evs (fun e he => (hall e he).1) s rfl

/-- On a client whose state is `Connected` or `ConnectFailed`, `connected` returns that
state at once and leaves the client as it was. -/
theorem connected_resolved (getMetaData : ProtonMessage → MetaData) (s : AmqpClient)
    (evs : List Callback)
    (h : s.m_communicationState = .Connected ∨ s.m_communicationState = .ConnectFailed) :
    connected getMetaData s evs = .ok (s.m_communicationState, s) := by
  unfold connected
  have hn : ¬ (s.m_communicationState = .Unknown ∨ s.m_communicationState = .Lost) := by
    rcases h with h | h <;> simp [h]
  rw [if_neg hn]

/-- On a client whose state is resolved, `send` with no transport error during its wait
leaves the connection state as it was. -/
theorem send_state {getMetaData : ProtonMessage → MetaData} {a b : AmqpClient}
    {msg : ProtonMessage} {evsC evsS : List Callback} {d : DeliveryState}
    (hres : a.m_communicationState = .Connected ∨ a.m_communicationState = .ConnectFailed)
    (hq : quietCallbacks evsS)
    (h : send getMetaData a msg evsC evsS = .ok (d, b)) :
    b.m_communicationState = a.m_communicationState := by
  have hc := connected_resolved getMetaData a evsC hres
  by_cases hcon : a.m_communicationState = .Connected
  · rw [hcon] at hc
    rw [send_connected hc] at h
    simp only [Except.ok.injEq, Prod.mk.injEq] at h
    rw [← h.2]
    exact wait_for_state getMetaData _ evsS hq (sendArmed a msg)
  · simp only [send, hc, hcon, if_false, Except.ok.injEq, Prod.mk.injEq] at h
    rw [← h.2]

/-- On a client whose state is resolved, `receive` with no transport error during its
wait leaves the connection state as it was. -/
theorem receive_state {getMetaData : ProtonMessage → MetaData} {a b : AmqpClient}
    {address filter : String} {l : MessageListener} {evsC evsR : List Callback}
    {d : DeliveryState}
    (hres : a.m_communicationState = .Connected ∨ a.m_communicationState = .ConnectFailed)
    (hq : quietCallbacks evsR)
    (h : receive getMetaData a address filter l evsC evsR = .ok (d, b)) :
    b.m_communicationState = a.m_communicationState := by
  have hc := connected_resolved getMetaData a evsC hres
  by_cases hcon : a.m_communicationState = .Connected
  · rw [hcon] at hc
    rw [receive_connected hc] at h
    simp only [Except.ok.injEq, Prod.mk.injEq] at h
    rw [← h.2, wait_for_state getMetaData _ evsR hq]
    unfold receiveArmed
    by_cases hf : filter.isEmpty = true
    · simp only [hf, Bool.not_true, Bool.false_eq_true, if_false]
      rw [setSubscriptions_eq]
    · simp only [hf, Bool.not_false, if_true]
      rw [setSubscriptions_eq]
  · simp only [receive, hc, hcon, if_false, Except.ok.injEq, Prod.mk.injEq] at h
    rw [← h.2]

/-- The function `unreceive` with no transport error during its wait leaves the
connection state as it was. -/
theorem unreceive_state {getMetaData : ProtonMessage → MetaData} {a b : AmqpClient}
    {active : Bool} {evs : List Callback} {d : DeliveryState}
    (hq : quietCallbacks evs)
    (h : unreceive getMetaData a active evs = .ok (d, b)) :
    b.m_communicationState = a.m_communicationState := by
  rw [unreceive_eq] at h
  simp only [Except.ok.injEq] at h
  cases hr : a.m_receiver with
  | none =>
    rw [hr] at h
    simp only [Prod.mk.injEq] at h
    rw [← h.2]
  | some r =>
    rw [hr] at h
    cases active with
    | false =>
      simp only [Prod.mk.injEq] at h
      rw [← h.2]
    | true =>
      simp only [Prod.mk.injEq] at h
      rw [← h.2]
      exact wait_for_state getMetaData _ evs hq (unreceiveArmed a)

/-- The function `close` with no transport error during its wait leaves the connection
state as it was. -/
theorem close_state {getMetaData : ProtonMessage → MetaData} {a b : AmqpClient}
    {receiverActive connectionActive : Bool} {evs : List Callback} {d : DeliveryState}
    (hq : quietCallbacks evs)
    (h : close getMetaData a receiverActive evs connectionActive = .ok (d, b)) :
    b.m_communicationState = a.m_communicationState := by
  unfold close at h
  cases hu : unreceive getMetaData a receiverActive evs with
  | error x => simp [hu] at h
  | ok r =>
    obtain ⟨d1, su⟩ := r
    have hsu := unreceive_state hq hu
    simp only [hu] at h
    split at h
    · simp only [Except.ok.injEq, Prod.mk.injEq] at h
      rw [← h.2]
      exact hsu
    · simp only [Except.ok.injEq, Prod.mk.injEq] at h
      rw [← h.2]
      exact hsu

/-- Along a stretch with no transport error and no reconnect, a resolved connection
state stays what it was. -/
theorem quiet_state {getMetaData : ProtonMessage → MetaData} {s a : AmqpClient}
    (hq : Quiet getMetaData s a)
    (hres : s.m_communicationState = .Connected ∨ s.m_communicationState = .ConnectFailed) :
    a.m_communicationState = s.m_communicationState := by
  induction hq with
  | refl => rfl
  | callback e hq1 he hr hf ih =>
    rename_i a b
    have h := fire_state getMetaData a e he
    rw [hf] at h
    exact h.trans ih
  | callback_raised e x hq1 he hr hf ih =>
    rename_i a b
    have h := fire_state getMetaData a e he
    rw [hf] at h
    exact h.trans ih
  | connected evs r hq1 hqC hc ih =>
    rename_i a b
    rw [connected_resolved getMetaData a evs (by rw [ih]; exact hres)] at hc
    simp only [Except.ok.injEq, Prod.mk.injEq] at hc
    rw [← hc.2]
    exact ih
  | send msg evsC evsS d _ _ hqS hs ih =>
    exact (send_state (by rw [ih]; exact hres) hqS hs).trans ih
  | receive address filter l evsC evsR d _ _ hqR hr ih =>
    exact (receive_state (by rw [ih]; exact hres) hqR hr).trans ih
  | unreceive active evs d _ hqU hu ih => exact (unreceive_state hqU hu).trans ih
  | close ra evs ca d _ hqC hcl ih => exact (close_state hqC hcl).trans ih

/-- C11. Once `connected()` has returned `Connected` or `ConnectFailed`, a further call
made after any stretch of the run without transport-error callback and without
reconnect returns the same value and leaves the client as it was, the stored state and
the connect signal included.  The stretch may hold other callbacks, other operations
and earlier further calls of `connected()`, so this covers every further call. -/
theorem C11_connected_idempotent (getMetaData : ProtonMessage → MetaData)
    (s s1 s2 : AmqpClient) (evs evs2 : List Callback) (c : ComState)
    (h : connected getMetaData s evs = .ok (c, s1))
    (hc : c = .Connected ∨ c = .ConnectFailed)
    (hq : Quiet getMetaData s1 s2) :
    connected getMetaData s2 evs2 = .ok (c, s2) ∧
      s2.m_communicationState = c := by
  have h1 : s1.m_communicationState = c := connected_state h
  have hres : s1.m_communicationState = .Connected ∨ s1.m_communicationState = .ConnectFailed := by
    rw [h1]
    exact hc
  have h2 : s2.m_communicationState = c := (quiet_state hq hres).trans h1
  refine ⟨?_, h2⟩
  have := connected_resolved getMetaData s2 evs2 (by rw [h2]; exact hc)
  rw [h2] at this
  exact this

/-- A run of C11: a new client whose connection never opens gets `ConnectFailed`; after
a late `on_connection_open` (no reconnect) a further call still returns
`ConnectFailed` and changes nothing. -/
theorem C11_connected_idempotent_witness :
    connected noMetaData
        { create "amqp://127.0.0.1:5672" with
          m_communicationState := .ConnectFailed
          m_connectPromise := { gen := 0, value := some .Connected, retrieved := true }
          m_connection := some { reconnected := false } } [] =
      .ok (.ConnectFailed,
        { create "amqp://127.0.0.1:5672" with
          m_communicationState := .ConnectFailed
          m_connectPromise := { gen := 0, value := some .Connected, retrieved := true }
          m_connection := some { reconnected := false } }) :=
  (C11_connected_idempotent noMetaData (create "amqp://127.0.0.1:5672")
    { create "amqp://127.0.0.1:5672" with
      m_communicationState := .ConnectFailed
      m_connectPromise := { gen := 0, value := none, retrieved := true } }
    { create "amqp://127.0.0.1:5672" with
      m_communicationState := .ConnectFailed
      m_connectPromise := { gen := 0, value := some .Connected, retrieved := true }
      m_connection := some { reconnected := false } }
    [] [] .ConnectFailed rfl (Or.inr rfl)
    (Quiet.callback (Callback.on_connection_open { reconnected := false })
      (Quiet.refl _) rfl rfl rfl)).1

/-- Only a reconnect reassigns the connect promise: any other callback, returning or
raising, leaves its generation as it was. -/
theorem fire_connect_gen (getMetaData : ProtonMessage → MetaData) (s : AmqpClient) (e : Callback)
    (he : e.isReconnect = false) :
    match fire getMetaData s e with
    | .ok c => c.m_connectPromise.gen = s.m_connectPromise.gen
    | .error (_, c) => c.m_connectPromise.gen = s.m_connectPromise.gen := by
  cases e with
  | on_container_start t =>
    cases t
    · simp only [fire, on_container_start, Bool.false_eq_true, if_false]
    · by_cases hv : s.m_connectPromise.value.isSome = true
      · simp only [fire, on_container_start, Promise.set_value, hv, if_true]
      · simp only [fire, on_container_start, Promise.set_value, hv, if_true, Bool.false_eq_true,
          if_false]
  | on_connection_open c =>
    obtain ⟨b⟩ := c
    cases b
    · by_cases hv : s.m_connectPromise.value.isSome = true
      · simp only [fire, on_connection_open, Promise.set_value, hv, if_true, Bool.false_eq_true,
          if_false]
      · simp only [fire, on_connection_open, Promise.set_value, hv, if_true, Bool.false_eq_true,
          if_false]
    · simp [Callback.isReconnect] at he
  | on_sender_open sn =>
    by_cases hv : s.m_promiseSender.value.isSome = true
    · simp only [fire, on_sender_open, Promise.set_value, hv, if_true]
    · simp only [fire, on_sender_open, Promise.set_value, hv, if_true, Bool.false_eq_true, if_false]
  | on_receiver_open r =>
    by_cases hv : s.m_promiseReceiver.value.isSome = true
    · simp only [fire, on_receiver_open, Promise.set_value, hv, if_true]
    · simp only [fire, on_receiver_open, Promise.set_value, hv, if_true, Bool.false_eq_true,
        if_false]
  | on_receiver_close r =>
    by_cases hv : s.m_promiseReceiver.value.isSome = true
    · simp only [fire, on_receiver_close, Promise.set_value, hv, if_true]
    · simp only [fire, on_receiver_close, Promise.set_value, hv, if_true, Bool.false_eq_true,
        if_false]
  | on_error w => rfl
  | on_transport_error w => rfl
  | on_message m =>
    simp only [fire]
    rw [on_message_eq]

/-- A wait during which no reconnect is delivered leaves the generation of the connect
promise as it was. -/
theorem wait_for_connect_gen (getMetaData : ProtonMessage → MetaData)
    (isReady : AmqpClient → Bool) (evs : List Callback)
    (hall : ∀ e ∈ evs, e.isReconnect = false) (s : AmqpClient) :
    (wait_for getMetaData isReady evs s).2.m_connectPromise.gen = s.m_connectPromise.gen :=
  wait_for_preserves_on getMetaData
    (fun c => c.m_connectPromise.gen = s.m_connectPromise.gen)
    (fun e => e.isReconnect = false)
    (fun a e he ha => by
      have h := fire_connect_gen getMetaData a e he
      cases hf : fire getMetaData a e with
      | ok c =>
        rw [hf] at h
        exact h.trans ha
      | error x =>
        obtain ⟨x1, c⟩ := x
        rw [hf] at h
        exact h.trans ha)
    isReady evs hall s rfl

/-- C12, the run where the code departs from the claim.  A new client (state `Unknown`,
connect signal not read) calls `connected()`; while it waits the first attempt fails
(`on_transport_error`) and the transport reconnects.  `on_connection_open` runs
`resetPromise` and fulfils the new connect signal with `Connected`, all within
`TIMEOUT`; the future that `connected()` waits on belongs to the replaced signal and
breaks, the `future_error` is caught, and `connected()` returns the stored state
`Lost`: neither `Connected` nor `ConnectFailed`.  The new signal is left unread
holding `Connected`, and only a second call returns `Connected`. -/
theorem C12_reconnect_during_first_connected :
    (create "amqp://127.0.0.1:5672").m_communicationState = .Unknown ∧
    (create "amqp://127.0.0.1:5672").m_connectPromise.retrieved = false ∧
    ∃ s1 s2, connected noMetaData (create "amqp://127.0.0.1:5672")
          [Callback.on_transport_error "connection refused",
            Callback.on_connection_open { reconnected := true }] = .ok (.Lost, s1) ∧
      s1.m_communicationState = .Lost ∧
      s1.m_connectPromise = { gen := 1, value := some .Connected, retrieved := false } ∧
      connected noMetaData s1 [] = .ok (.Connected, s2) :=
  ⟨rfl, rfl, _, _, rfl, rfl, rfl, rfl⟩

/-- For a client in state `Unknown` whose connect signal has not been read, and when no
reconnect replaces that signal during the wait, `connected()` returns, the stored
state equals the returned value, and the signal the client holds is still the awaited
one.  The value is `Connected` exactly when that signal holds
`Connected` (written by `on_connection_open`), and `ConnectFailed` exactly when the
signal is still pending at the end of the wait (no fulfilment within `TIMEOUT`) or
holds `ConnectFailed` (written by `on_container_start` after a throwing connect). -/
theorem connected_first_call (getMetaData : ProtonMessage → MetaData) (s : AmqpClient)
    (evs : List Callback)
    (hU : s.m_communicationState = .Unknown)
    (hunread : s.m_connectPromise.retrieved = false)
    (hnore : ∀ e ∈ evs, e.isReconnect = false) :
    ∃ c s1, connected getMetaData s evs = .ok (c, s1) ∧
      s1.m_communicationState = c ∧
      s1.m_connectPromise.gen = s.m_connectPromise.gen ∧
      (c = .Connected ↔ s1.m_connectPromise.value = some .Connected) ∧
      (c = .ConnectFailed ↔
        s1.m_connectPromise.value = none ∨ s1.m_connectPromise.value = some .ConnectFailed) := by
  unfold connected
  rw [if_pos (Or.inl hU)]
  simp only [Promise.get_future, hunread, Bool.false_eq_true, if_false]
  have hgen := wait_for_connect_gen getMetaData
    (fun c => c.m_connectPromise.ready s.m_connectPromise.gen) evs hnore
    { s with m_connectPromise := { s.m_connectPromise with retrieved := true } }
  have hfst := wait_for_fst getMetaData
    (fun c => c.m_connectPromise.ready s.m_connectPromise.gen) evs
    { s with m_connectPromise := { s.m_connectPromise with retrieved := true } }
  revert hgen hfst
  cases hw : wait_for getMetaData
    (fun c => c.m_connectPromise.ready s.m_connectPromise.gen) evs
    { s with m_connectPromise := { s.m_connectPromise with retrieved := true } } with
  | mk r s2 =>
    intro hgen hfst
    simp only at hgen hfst
    cases r with
    | true =>
      have hsome : s2.m_connectPromise.value.isSome = true := by
        have h := hfst.symm
        simp only [Promise.ready, hgen, bne_self_eq_false, Bool.false_or] at h
        exact h
      cases hv : s2.m_connectPromise.value with
      | none => simp [hv] at hsome
      | some v =>
        have hget : s2.m_connectPromise.get s.m_connectPromise.gen = .ok v := by
          simp [Promise.get, hgen, hv]
        simp only [hget]
        refine ⟨v, _, rfl, rfl, hgen, ?_, ?_⟩
        · simp [hv]
        · simp [hv]
    | false =>
      have hnone : s2.m_connectPromise.value = none := by
        have h := hfst.symm
        simp only [Promise.ready, hgen, bne_self_eq_false, Bool.false_or] at h
        cases hv : s2.m_connectPromise.value with
        | none => rfl
        | some v => simp [hv] at h
      refine ⟨.ConnectFailed, _, rfl, rfl, hgen, ?_, ?_⟩
      · simp [hnone]
      · simp [hnone]

/-- A callback that does not touch the connect signal, returning or raising, leaves
that signal as it was. -/
theorem fire_connect_untouched (getMetaData : ProtonMessage → MetaData) (s : AmqpClient)
    (e : Callback) (he : e.touchesConnect = false) :
    match fire getMetaData s e with
    | .ok c => c.m_connectPromise = s.m_connectPromise
    | .error (_, c) => c.m_connectPromise = s.m_connectPromise := by
  cases e with
  | on_container_start t =>
    cases t
    · simp only [fire, on_container_start, Bool.false_eq_true, if_false]
    · simp [Callback.touchesConnect] at he
  | on_connection_open c => simp [Callback.touchesConnect] at he
  | on_sender_open sn =>
    by_cases hv : s.m_promiseSender.value.isSome = true
    · simp only [fire, on_sender_open, Promise.set_value, hv, if_true]
    · simp only [fire, on_sender_open, Promise.set_value, hv, if_true, Bool.false_eq_true, if_false]
  | on_receiver_open r =>
    by_cases hv : s.m_promiseReceiver.value.isSome = true
    · simp only [fire, on_receiver_open, Promise.set_value, hv, if_true]
    · simp only [fire, on_receiver_open, Promise.set_value, hv, if_true, Bool.false_eq_true,
        if_false]
  | on_receiver_close r =>
    by_cases hv : s.m_promiseReceiver.value.isSome = true
    · simp only [fire, on_receiver_close, Promise.set_value, hv, if_true]
    · simp only [fire, on_receiver_close, Promise.set_value, hv, if_true, Bool.false_eq_true,
        if_false]
  | on_error w => rfl
  | on_transport_error w => rfl
  | on_message m =>
    simp only [fire]
    rw [on_message_eq]

/-- A wait during which no callback touches the connect signal leaves that signal as
it was. -/
theorem wait_for_connect_untouched (getMetaData : ProtonMessage → MetaData)
    (isReady : AmqpClient → Bool) (evs : List Callback)
    (hall : ∀ e ∈ evs, e.touchesConnect = false) (s : AmqpClient) :
    (wait_for getMetaData isReady evs s).2.m_connectPromise = s.m_connectPromise :=
  wait_for_preserves_on getMetaData
    (fun c => c.m_connectPromise = s.m_connectPromise)
    (fun e => e.touchesConnect = false)
    (fun a e he ha => by
      have h := fire_connect_untouched getMetaData a e he
      cases hf : fire getMetaData a e with
      | ok c =>
        rw [hf] at h
        exact h.trans ha
      | error x =>
        obtain ⟨x1, c⟩ := x
        rw [hf] at h
        exact h.trans ha)
    isReady evs hall s rfl

/-- The first `connected()` of a client (state `Unknown`, connect signal pending and
not read), callback by callback.  When the first callback of the wait is
`on_connection_open` without reconnect, the result is `Connected`.  When it is
`on_container_start` with a throwing connect attempt, the result is `ConnectFailed`.
When no callback of the wait touches the connect signal, the wait times out and the
result is `ConnectFailed`.  In each case the stored state is the value returned. -/
theorem connected_first_call_outcomes (getMetaData : ProtonMessage → MetaData)
    (s : AmqpClient) (rest evs : List Callback)
    (hU : s.m_communicationState = .Unknown)
    (hunread : s.m_connectPromise.retrieved = false)
    (hpending : s.m_connectPromise.value = none) :
    (∃ s1, connected getMetaData s
        (Callback.on_connection_open { reconnected := false } :: rest) = .ok (.Connected, s1) ∧
      s1.m_communicationState = .Connected) ∧
    (∃ s1, connected getMetaData s (Callback.on_container_start true :: rest)
        = .ok (.ConnectFailed, s1) ∧
      s1.m_communicationState = .ConnectFailed) ∧
    ((∀ e ∈ evs, e.touchesConnect = false) →
      ∃ s1, connected getMetaData s evs = .ok (.ConnectFailed, s1) ∧
        s1.m_communicationState = .ConnectFailed ∧
        s1.m_connectPromise.value = none) := by
  refine ⟨?_, ?_, ?_⟩
  · unfold connected
    rw [if_pos (Or.inl hU)]
    simp only [Promise.get_future, hunread, Bool.false_eq_true, if_false]
    have hw : wait_for getMetaData (fun c => c.m_connectPromise.ready s.m_connectPromise.gen)
        (Callback.on_connection_open { reconnected := false } :: rest)
        { s with m_connectPromise := { s.m_connectPromise with retrieved := true } }
        = (true, { s with
            m_connection := some { reconnected := false }
            m_connectPromise :=
              { gen := s.m_connectPromise.gen, value := some .Connected, retrieved := true } }) := by
      rw [wait_for]
      simp only [Promise.ready, hpending, bne_self_eq_false, Option.isSome_none, Bool.or_self,
        Bool.false_eq_true, if_false, fire, on_connection_open, Promise.set_value]
      exact wait_for_ready_now getMetaData _ rest _ (by simp)
    rw [hw]
    simp [Promise.get]
  · unfold connected
    rw [if_pos (Or.inl hU)]
    simp only [Promise.get_future, hunread, Bool.false_eq_true, if_false]
    have hw : wait_for getMetaData (fun c => c.m_connectPromise.ready s.m_connectPromise.gen)
        (Callback.on_container_start true :: rest)
        { s with m_connectPromise := { s.m_connectPromise with retrieved := true } }
        = (true, { s with
            m_connectPromise :=
              { gen := s.m_connectPromise.gen, value := some .ConnectFailed,
                retrieved := true } }) := by
      rw [wait_for]
      simp only [Promise.ready, hpending, bne_self_eq_false, Option.isSome_none, Bool.or_self,
        Bool.false_eq_true, if_false, fire, on_container_start, Promise.set_value, if_true]
      exact wait_for_ready_now getMetaData _ rest _ (by simp)
    rw [hw]
    simp [Promise.get]
  · intro hall
    unfold connected
    rw [if_pos (Or.inl hU)]
    simp only [Promise.get_future, hunread, Bool.false_eq_true, if_false]
    have hsig := wait_for_connect_untouched getMetaData
      (fun c => c.m_connectPromise.ready s.m_connectPromise.gen) evs hall
      { s with m_connectPromise := { s.m_connectPromise with retrieved := true } }
    have hfst := wait_for_fst getMetaData
      (fun c => c.m_connectPromise.ready s.m_connectPromise.gen) evs
      { s with m_connectPromise := { s.m_connectPromise with retrieved := true } }
    revert hsig hfst
    cases hw : wait_for getMetaData
      (fun c => c.m_connectPromise.ready s.m_connectPromise.gen) evs
      { s with m_connectPromise := { s.m_connectPromise with retrieved := true } } with
    | mk r s2 =>
      intro hsig hfst
      simp only at hsig hfst
      have hr : r = false := by
        rw [hfst]
        apply Promise.ready_pending
        · rw [hsig]
        · rw [hsig]
          exact hpending
      subst hr
      refine ⟨_, rfl, rfl, ?_⟩
      simp only
      rw [hsig]
      exact hpending

/-- C13, the run where the code departs from the claim.  A new client: the connection
opens (first open, no reconnect) and fulfils the connect signal; the transport then
fails and the state becomes `Lost`; no reconnect follows.  The next `connected()`,
with no callback at all during its wait, reads the signal fulfilled before the loss
and moves the state from `Lost` to `Connected`. -/
theorem C13_stale_signal_connected_after_lost :
    ∃ s1 s2, fire noMetaData (create "amqp://127.0.0.1:5672")
          (Callback.on_connection_open { reconnected := false }) = .ok s1 ∧
      (s1.on_transport_error "connection lost").m_communicationState = .Lost ∧
      connected noMetaData (s1.on_transport_error "connection lost") [] = .ok (.Connected, s2) ∧
      s2.m_communicationState = .Connected :=
  ⟨_, _, rfl, rfl, rfl, rfl⟩

/-- C14, the run where the code departs from the claim.  The connected client, whose
connect signal has been read, meets a transport error and no reconnect.  The state is
`Lost`, so `connected()` calls `get_future()` a second time on the same promise; the
`future_error` is thrown outside the `try` block and leaves `connected()`, and with it
`send` and `receive`. -/
theorem C14_operations_raise_after_transport_error :
    Reachable noMetaData (connectedClient.on_transport_error "connection lost") ∧
    connected noMetaData (connectedClient.on_transport_error "connection lost") []
      = .error .future_already_retrieved ∧
    send noMetaData (connectedClient.on_transport_error "connection lost")
        { ProtonMessage.empty with address := "/topicTest", body := some "RESPONSE" } [] []
      = .error .future_already_retrieved ∧
    receive noMetaData (connectedClient.on_transport_error "connection lost")
        "/topicTest" "" (some 1) [] []
      = .error .future_already_retrieved :=
  ⟨Reachable.callback (Callback.on_transport_error "connection lost")
      connectedClient_reachable rfl, rfl, rfl, rfl⟩

/-! ## Where listeners run -/

/-- When an inbound message matches the active subscription (the connection handle is
recorded, the key of the slot is not empty and equals the routing key, the listener is
present), `on_message` adds the call of the listener with the message as one unit at
the end of the work queue of the connection, the queue that also takes the
open-sender, open-receiver and close-receiver units; nothing else in the client
changes. -/
theorem on_message_schedules_on_work_queue (getMetaData : ProtonMessage → MetaData)
    (s : AmqpClient) (msg : ProtonMessage) (l : Nat)
    (hconn : s.m_connection.isSome = true)
    (hkey : s.m_subscriptions.1 ≠ "")
    (hmatch : on_message_key msg = s.m_subscriptions.1)
    (hl : s.m_subscriptions.2 = some l) :
    on_message getMetaData s msg =
      { s with work_queue :=
          s.work_queue ++ [Work.listener (some l) (on_message_amqpMsg getMetaData msg)] } ∧
    Work.listener (some l) (on_message_amqpMsg getMetaData msg)
      ∈ (on_message getMetaData s msg).work_queue := by
  have hslot : s.m_subscriptions = (s.m_subscriptions.1, some l) := by
    rw [← hl]
  have h := on_message_match getMetaData s msg s.m_subscriptions.1 l hconn hslot hkey hmatch
  refine ⟨h, ?_⟩
  rw [h]
  simp

/-- C15, the run where the code departs from the claim.  The subscribed client gets a
message for its topic.  `on_message` puts the call of the listener on the work queue
of the connection itself, right after the open-receiver unit that `receive` queued
there; the client has no other place to hand a listener to. -/
theorem C15_listener_on_connection_queue :
    (on_message noMetaData subscribedClient
        { ProtonMessage.empty with address := "/topicTest", body := some "RESPONSE" }).work_queue
      = [Work.open_receiver "/topicTest",
          Work.listener (some 1) { metaData := [], userData := "RESPONSE" }] ∧
    on_message noMetaData subscribedClient
        { ProtonMessage.empty with address := "/topicTest", body := some "RESPONSE" }
      = { subscribedClient with work_queue :=
            [Work.open_receiver "/topicTest",
              Work.listener (some 1) { metaData := [], userData := "RESPONSE" }] } :=
  ⟨rfl, rfl⟩

/-! ## Completion signals -/

/-- C16. For every client state, `on_connection_open` for a connection that reports
`reconnected()` returns without raising; afterwards the send and receive signals are
new pending cells whose futures have not been taken, and the connect signal is a new
cell that holds `Connected` and has not been read.  When the state is `Lost`, the next
`connected()` call reads that cell and returns `Connected`, the state becoming
`Connected`. -/
theorem C16_reconnect_resets_signals (getMetaData : ProtonMessage → MetaData)
    (s : AmqpClient) (connection : Connection) (evs : List Callback)
    (hre : connection.reconnected = true) :
    ∃ s1, on_connection_open s connection = .ok s1 ∧
      s1.m_promiseSender =
        { gen := s.m_promiseSender.gen + 1, value := none, retrieved := false } ∧
      s1.m_promiseReceiver =
        { gen := s.m_promiseReceiver.gen + 1, value := none, retrieved := false } ∧
      s1.m_connectPromise =
        { gen := s.m_connectPromise.gen + 1, value := some .Connected, retrieved := false } ∧
      s1.m_communicationState = s.m_communicationState ∧
      (s.m_communicationState = .Lost →
        connected getMetaData s1 evs =
          .ok (.Connected,
            { s1 with
              m_communicationState := .Connected
              m_connectPromise :=
                { gen := s.m_connectPromise.gen + 1, value := some .Connected,
                  retrieved := true } })) := by
  obtain ⟨b⟩ := connection
  simp only at hre
  subst hre
  refine ⟨{ s with
      m_connection := some { reconnected := true }
      m_connectPromise :=
        { gen := s.m_connectPromise.gen + 1, value := some .Connected, retrieved := false }
      m_promiseSender := { gen := s.m_promiseSender.gen + 1, value := none, retrieved := false }
      m_promiseReceiver :=
        { gen := s.m_promiseReceiver.gen + 1, value := none, retrieved := false } },
    by simp [on_connection_open, resetPromise, Promise.fresh, Promise.set_value],
    rfl, rfl, rfl, rfl, ?_⟩
  intro hL
  unfold connected
  simp only [hL, or_true, if_true, Promise.get_future, Bool.false_eq_true, if_false]
  rw [wait_for_ready_now getMetaData _ evs _ (by simp [Promise.ready])]
  simp [Promise.get]

/-- A run of C16: the connected client loses its transport, the transport reconnects,
and the next `connected()` returns `Connected`. -/
theorem C16_reconnect_resets_signals_witness :
    ∃ s1, on_connection_open (connectedClient.on_transport_error "connection lost")
          { reconnected := true } = .ok s1 ∧
      connected noMetaData s1 [] =
        .ok (.Connected,
          { s1 with
            m_communicationState := .Connected
            m_connectPromise := { gen := 1, value := some .Connected, retrieved := true } }) := by
  obtain ⟨s1, h1, _, _, _, _, h6⟩ :=
    C16_reconnect_resets_signals noMetaData (connectedClient.on_transport_error "connection lost")
      { reconnected := true } [] rfl
  exact ⟨s1, h1, h6 rfl⟩

/-- C17, the runs where the code departs from the claim.  First run: a `receive` is
answered by `on_receiver_open`, which fulfils the receive signal; the link is then
closed with no operation in between, and `on_receiver_close` calls `set_value` on the
fulfilled signal: `promise_already_satisfied` leaves the callback.  Second run: two
`on_connection_open` calls without reconnect on a new client; the second one raises in
the same way.  In both runs the first value stays in the signal. -/
theorem C17_second_fulfilment_raises :
    (receive noMetaData connectedClient "/topicTest" "" (some 1) []
        [Callback.on_receiver_open { address := "/topicTest" }]
      = .ok (.Accepted, subscribedClient) ∧
    fire noMetaData subscribedClient (Callback.on_receiver_close { address := "/topicTest" })
      = .error (.promise_already_satisfied, subscribedClient)) ∧
    (∃ s1, fire noMetaData (create "amqp://127.0.0.1:5672")
        (Callback.on_connection_open { reconnected := false }) = .ok s1 ∧
      fire noMetaData s1 (Callback.on_connection_open { reconnected := false })
        = .error (.promise_already_satisfied, s1) ∧
      s1.m_connectPromise.value = some .Connected) :=
  ⟨⟨rfl, rfl⟩, ⟨_, rfl, rfl, rfl⟩⟩

/-- C18, the run where the code departs from the claim.  The connected client sends a
first message to `/queueA`; the sender does not open within `TIMEOUT` and the send is
`Rejected`.  It then sends a second message to `/queueB`; while this send waits, the
late `on_sender_open` of the sender for `/queueA` arrives.  The callback hands the
stored message, now the second one, to the sender for `/queueA` and fulfils the send
signal: the second send returns `Accepted` although the sender it asked for never
opened. -/
theorem C18_late_sender_open_accepts_later_send :
    ∃ s1 s2, send noMetaData connectedClient
          { ProtonMessage.empty with address := "/queueA", body := some "first" } [] []
        = .ok (.Rejected, s1) ∧
      send noMetaData s1
          { ProtonMessage.empty with address := "/queueB", body := some "second" } []
          [Callback.on_sender_open { address := "/queueA" }]
        = .ok (.Accepted, s2) ∧
      s2.sent = [({ address := "/queueA" },
          { ProtonMessage.empty with address := "/queueB", body := some "second" })] ∧
      s2.work_queue = [Work.open_sender "/queueA", Work.open_sender "/queueB"] :=
  ⟨_, _, rfl, rfl, rfl, rfl⟩

/-! ## A receive that times out -/

/-- Without a recorded receiver handle `unreceive` renews the receive signal, returns
`Rejected` and touches nothing else. -/
theorem unreceive_no_receiver (getMetaData : ProtonMessage → MetaData) (s : AmqpClient)
    (active : Bool) (evs : List Callback) (h : s.m_receiver = none) :
    unreceive getMetaData s active evs =
      .ok (.Rejected, { s with m_promiseReceiver := s.m_promiseReceiver.fresh }) := by
  obtain ⟨url, st, cp, ps, pr, conn, recv, m, subs, wq, snt, cc⟩ := s
  simp only at h
  subst h
  rfl

/-- A callback other than `on_receiver_open`, `on_receiver_close` and a reconnect,
returning or raising, leaves the receive signal and the receiver handle as they
were. -/
theorem fire_receive_signal (getMetaData : ProtonMessage → MetaData) (s : AmqpClient)
    (e : Callback) (he : e.endsReceiveWait = false) :
    match fire getMetaData s e with
    | .ok c => c.m_promiseReceiver = s.m_promiseReceiver ∧ c.m_receiver = s.m_receiver
    | .error (_, c) => c.m_promiseReceiver = s.m_promiseReceiver ∧ c.m_receiver = s.m_receiver := by
  cases e with
  | on_container_start t =>
    cases t
    · simp only [fire, on_container_start, Bool.false_eq_true, if_false, and_self]
    · by_cases hv : s.m_connectPromise.value.isSome = true
      · simp only [fire, on_container_start, Promise.set_value, hv, if_true, and_self]
      · simp only [fire, on_container_start, Promise.set_value, hv, if_true, Bool.false_eq_true,
          if_false, and_self]
  | on_connection_open c =>
    obtain ⟨b⟩ := c
    cases b
    · by_cases hv : s.m_connectPromise.value.isSome = true
      · simp only [fire, on_connection_open, Promise.set_value, hv, if_true, Bool.false_eq_true,
          if_false, and_self]
      · simp only [fire, on_connection_open, Promise.set_value, hv, if_true, Bool.false_eq_true,
          if_false, and_self]
    · simp [Callback.endsReceiveWait] at he
  | on_sender_open sn =>
    by_cases hv : s.m_promiseSender.value.isSome = true
    · simp only [fire, on_sender_open, Promise.set_value, hv, if_true, and_self]
    · simp only [fire, on_sender_open, Promise.set_value, hv, if_true, Bool.false_eq_true,
        if_false, and_self]
  | on_receiver_open r => simp [Callback.endsReceiveWait] at he
  | on_receiver_close r => simp [Callback.endsReceiveWait] at he
  | on_error w => simp [fire, on_error]
  | on_transport_error w => simp [fire, on_transport_error]
  | on_message m =>
    simp only [fire]
    rw [on_message_eq]
    simp

/-- A wait during which none of `on_receiver_open`, `on_receiver_close` and a
reconnect is delivered leaves the receive signal and the receiver handle as they
were. -/
theorem wait_for_receive_signal (getMetaData : ProtonMessage → MetaData)
    (isReady : AmqpClient → Bool) (evs : List Callback)
    (hall : ∀ e ∈ evs, e.endsReceiveWait = false) (s : AmqpClient) :
    (wait_for getMetaData isReady evs s).2.m_promiseReceiver = s.m_promiseReceiver ∧
      (wait_for getMetaData isReady evs s).2.m_receiver = s.m_receiver :=
  wait_for_preserves_on getMetaData
    (fun c => c.m_promiseReceiver = s.m_promiseReceiver ∧ c.m_receiver = s.m_receiver)
    (fun e => e.endsReceiveWait = false)
    (fun a e he ha => by
      have h := fire_receive_signal getMetaData a e he
      cases hf : fire getMetaData a e with
      | ok c =>
        rw [hf] at h
        exact ⟨h.1.trans ha.1, h.2.trans ha.2⟩
      | error x =>
        obtain ⟨x1, c⟩ := x
        rw [hf] at h
        exact ⟨h.1.trans ha.1, h.2.trans ha.2⟩)
    isReady evs hall s ⟨rfl, rfl⟩

/-- The slot written by `receive` for a valid key and a listener that is present. -/
theorem receiveArmed_slot (sc : AmqpClient) (address filter : String) (l : Nat)
    (hvalid : (if filter = "" then address else filter) ≠ "") :
    (receiveArmed sc address filter (some l)).m_subscriptions
      = ((if filter = "" then address else filter), some l) := by
  by_cases hf : filter = ""
  · rw [if_pos hf] at hvalid ⊢
    rw [hf]
    exact receiveArmed_address sc address l hvalid
  · rw [if_neg hf]
    exact receiveArmed_filter sc address filter l hf

/-- The receiver handle and the receive signal at the moment `receive` starts to wait. -/
theorem receiveArmed_receiver (sc : AmqpClient) (address filter : String) (l : MessageListener) :
    (receiveArmed sc address filter l).m_receiver = sc.m_receiver ∧
      (receiveArmed sc address filter l).m_promiseReceiver
        = { gen := sc.m_promiseReceiver.gen + 1, value := none, retrieved := true } := by
  unfold receiveArmed
  by_cases hf : filter.isEmpty = true
  · simp only [hf, Bool.not_true, Bool.false_eq_true, if_false, and_true]
    rw [setSubscriptions_eq]
  · simp only [hf, Bool.not_false, if_true, and_true]
    rw [setSubscriptions_eq]

/-- C19, two cases where it fails.  First run: the client already holds a subscription
whose receiver handle is recorded; a `receive` for `/other` times out and leaves
`/other` in the slot, but the `unreceive` that follows finds the handle of the earlier
receiver and empties the slot.  Second run: no receiver-open callback arrives, yet a
late `on_receiver_close` fulfils the receive signal during the wait and `receive`
returns `Accepted`. -/
theorem C19_counterexample :
    (∃ s1 s2, receive noMetaData subscribedClient "/other" "" (some 3) [] []
          = .ok (.Rejected, s1) ∧
        s1.m_subscriptions = ("/other", some 3) ∧
        unreceive noMetaData s1 true [] = .ok (.Rejected, s2) ∧
        s2.m_subscriptions = ("", none)) ∧
    (∃ s1, receive noMetaData connectedClient "/topicTest" "" (some 1) []
          [Callback.on_receiver_close { address := "/old" }] = .ok (.Accepted, s1) ∧
        s1.m_receiver = none) :=
  ⟨⟨_, _, rfl, rfl, rfl, rfl⟩, ⟨_, rfl, rfl⟩⟩

/-- C19, amended.  For every connected client, a `receive(address, filter, listener)`
with a valid key (`filter`, or `address` when `filter` is empty) and a listener that is
present, during whose wait none of `on_receiver_open`, `on_receiver_close` and a
reconnect arrives, returns `Rejected` and leaves the new pair in the slot, in place of
what was there: the slot is not rolled back.  The receive records no receiver handle;
when none was recorded before either, a following `unreceive()` returns `Rejected`
and leaves the pair in the slot. -/
theorem C19_timed_out_receive_keeps_registration (getMetaData : ProtonMessage → MetaData)
    (s sc : AmqpClient) (address filter : String) (l : Nat) (evsC evsR evsU : List Callback)
    (active : Bool)
    (hc : connected getMetaData s evsC = .ok (.Connected, sc))
    (hvalid : (if filter = "" then address else filter) ≠ "")
    (hnone : ∀ e ∈ evsR, e.endsReceiveWait = false) :
    ∃ s1, receive getMetaData s address filter (some l) evsC evsR = .ok (.Rejected, s1) ∧
      s1.m_subscriptions = ((if filter = "" then address else filter), some l) ∧
      s1.m_receiver = sc.m_receiver ∧
      (sc.m_receiver = none →
        ∃ s2, unreceive getMetaData s1 active evsU = .ok (.Rejected, s2) ∧
          s2.m_subscriptions = ((if filter = "" then address else filter), some l)) := by
  have hw := wait_for_receive_signal getMetaData
    (fun c => c.m_promiseReceiver.ready (sc.m_promiseReceiver.gen + 1)) evsR hnone
    (receiveArmed sc address filter (some l))
  have hfst := wait_for_fst getMetaData
    (fun c => c.m_promiseReceiver.ready (sc.m_promiseReceiver.gen + 1)) evsR
    (receiveArmed sc address filter (some l))
  have harm := receiveArmed_receiver sc address filter (some l)
  have hfalse : (wait_for getMetaData
      (fun c => c.m_promiseReceiver.ready (sc.m_promiseReceiver.gen + 1)) evsR
      (receiveArmed sc address filter (some l))).1 = false := by
    rw [hfst]
    apply Promise.ready_pending
    · rw [hw.1, harm.2]
    · rw [hw.1, harm.2]
  have hslot := (wait_for_frame getMetaData
    (fun c => c.m_promiseReceiver.ready (sc.m_promiseReceiver.gen + 1)) evsR
    (receiveArmed sc address filter (some l))).1
  refine ⟨(wait_for getMetaData
      (fun c => c.m_promiseReceiver.ready (sc.m_promiseReceiver.gen + 1)) evsR
      (receiveArmed sc address filter (some l))).2, ?_, ?_, ?_, ?_⟩
  · rw [receive_connected hc, hfalse]
    simp only [Bool.false_eq_true, if_false]
  · rw [hslot]
    exact receiveArmed_slot sc address filter l hvalid
  · rw [hw.2, harm.1]
  · intro hnorecv
    refine ⟨{ (wait_for getMetaData
        (fun c => c.m_promiseReceiver.ready (sc.m_promiseReceiver.gen + 1)) evsR
        (receiveArmed sc address filter (some l))).2 with
        m_promiseReceiver := (wait_for getMetaData
          (fun c => c.m_promiseReceiver.ready (sc.m_promiseReceiver.gen + 1)) evsR
          (receiveArmed sc address filter (some l))).2.m_promiseReceiver.fresh }, ?_, ?_⟩
    · exact unreceive_no_receiver getMetaData _ active evsU
        (by rw [hw.2, harm.1, hnorecv])
    · simp only
      rw [hslot]
      exact receiveArmed_slot sc address filter l hvalid

/-- A run of C19 amended: on the connected client, with no receiver recorded,
`receive("/topicTest", "", listener 1)` times out; the pair stays in the slot, also
after `unreceive()`. -/
theorem C19_timed_out_receive_keeps_registration_witness :
    ∃ s1, receive noMetaData connectedClient "/topicTest" "" (some 1) [] [] = .ok (.Rejected, s1) ∧
      s1.m_subscriptions = ("/topicTest", some 1) ∧
      ∃ s2, unreceive noMetaData s1 true [] = .ok (.Rejected, s2) ∧
        s2.m_subscriptions = ("/topicTest", some 1) := by
  obtain ⟨s1, h1, h2, _, h4⟩ :=
    C19_timed_out_receive_keeps_registration noMetaData connectedClient connectedClient
      "/topicTest" "" 1 [] [] [] true rfl (by decide) (by decide)
  exact ⟨s1, h1, by simpa using h2, by simpa using h4 rfl⟩

/-! ## The slot is well formed -/

/-- Well-formedness depends on the slot only. -/
theorem slotWellFormed_of_eq {a b : AmqpClient} (h : b.m_subscriptions = a.m_subscriptions)
    (ha : slotWellFormed a) : slotWellFormed b := by
  unfold slotWellFormed at *
  rw [h]
  exact ha

/-- The function `setSubscriptions` keeps the slot well formed: it writes only a key
that is not empty together with a listener that is present. -/
theorem setSubscriptions_slotWellFormed (s : AmqpClient) (address : String)
    (l : MessageListener) (h : slotWellFormed s) :
    slotWellFormed (s.setSubscriptions address l) := by
  unfold setSubscriptions
  by_cases hc : (!address.isEmpty && l.isSome) = true
  · rw [if_pos hc]
    simp only [Bool.and_eq_true, Bool.not_eq_true', isEmpty_eq_decide, decide_eq_false_iff_not]
      at hc
    unfold slotWellFormed
    constructor
    · intro h1
      exact absurd h1 hc.1
    · intro h2
      simp only at h2
      rw [h2] at hc
      simp at hc
  · rw [if_neg hc]
    exact h

/-- The function `send` leaves the slot as it was. -/
theorem send_slot {getMetaData : ProtonMessage → MetaData} {a b : AmqpClient}
    {msg : ProtonMessage} {evsC evsS : List Callback} {d : DeliveryState}
    (h : send getMetaData a msg evsC evsS = .ok (d, b)) :
    b.m_subscriptions = a.m_subscriptions := by
  cases hc : connected getMetaData a evsC with
  | error x => simp [send, hc] at h
  | ok r =>
    obtain ⟨c, sc⟩ := r
    have hsc := (connected_frame hc).1
    by_cases hcon : c = .Connected
    · subst hcon
      rw [send_connected hc] at h
      simp only [Except.ok.injEq, Prod.mk.injEq] at h
      rw [← h.2, (wait_for_frame getMetaData _ evsS _).1]
      exact hsc
    · simp only [send, hc, hcon, if_false, Except.ok.injEq, Prod.mk.injEq] at h
      rw [← h.2]
      exact hsc

/-- The function `receive` keeps the slot well formed. -/
theorem receive_slotWellFormed {getMetaData : ProtonMessage → MetaData} {a b : AmqpClient}
    {address filter : String} {l : MessageListener} {evsC evsR : List Callback}
    {d : DeliveryState}
    (h : receive getMetaData a address filter l evsC evsR = .ok (d, b))
    (ha : slotWellFormed a) : slotWellFormed b := by
  cases hc : connected getMetaData a evsC with
  | error x => simp [receive, hc] at h
  | ok r =>
    obtain ⟨c, sc⟩ := r
    have hsc : slotWellFormed sc := slotWellFormed_of_eq (connected_frame hc).1 ha
    by_cases hcon : c = .Connected
    · subst hcon
      refine slotWellFormed_of_eq (receive_slot hc h) ?_
      unfold receiveArmed
      by_cases hf : filter.isEmpty = true
      · simp only [hf, Bool.not_true, Bool.false_eq_true, if_false]
        exact slotWellFormed_of_eq rfl
          (setSubscriptions_slotWellFormed
            { sc with m_promiseReceiver := sc.m_promiseReceiver.fresh } address l
            (slotWellFormed_of_eq rfl hsc))
      · simp only [hf, Bool.not_false, if_true]
        exact slotWellFormed_of_eq rfl
          (setSubscriptions_slotWellFormed
            { sc with m_promiseReceiver := sc.m_promiseReceiver.fresh } filter l
            (slotWellFormed_of_eq rfl hsc))
    · simp only [receive, hc, hcon, if_false, Except.ok.injEq, Prod.mk.injEq] at h
      rw [← h.2]
      exact hsc

/-- The function `unreceive` keeps the slot well formed: it leaves it or empties it. -/
theorem unreceive_slotWellFormed {getMetaData : ProtonMessage → MetaData} {a b : AmqpClient}
    {active : Bool} {evs : List Callback} {d : DeliveryState}
    (h : unreceive getMetaData a active evs = .ok (d, b))
    (ha : slotWellFormed a) : slotWellFormed b := by
  rw [unreceive_eq] at h
  simp only [Except.ok.injEq] at h
  have hempty : ∀ x : AmqpClient, x.m_subscriptions = ("", none) → slotWellFormed x := by
    intro x hx
    unfold slotWellFormed
    rw [hx]
    simp
  cases hr : a.m_receiver with
  | none =>
    rw [hr] at h
    simp only [Prod.mk.injEq] at h
    rw [← h.2]
    exact slotWellFormed_of_eq rfl ha
  | some r =>
    rw [hr] at h
    cases active with
    | false =>
      simp only [Prod.mk.injEq] at h
      rw [← h.2]
      exact hempty _ rfl
    | true =>
      simp only [Prod.mk.injEq] at h
      rw [← h.2]
      exact hempty _ rfl

/-- The function `close` keeps the slot well formed. -/
theorem close_slotWellFormed {getMetaData : ProtonMessage → MetaData} {a b : AmqpClient}
    {receiverActive connectionActive : Bool} {evs : List Callback} {d : DeliveryState}
    (h : close getMetaData a receiverActive evs connectionActive = .ok (d, b))
    (ha : slotWellFormed a) : slotWellFormed b := by
  unfold close at h
  cases hu : unreceive getMetaData a receiverActive evs with
  | error x => simp [hu] at h
  | ok r =>
    obtain ⟨d1, su⟩ := r
    have hsu := unreceive_slotWellFormed hu ha
    simp only [hu] at h
    split at h
    · simp only [Except.ok.injEq, Prod.mk.injEq] at h
      rw [← h.2]
      exact slotWellFormed_of_eq rfl hsu
    · simp only [Except.ok.injEq, Prod.mk.injEq] at h
      rw [← h.2]
      exact hsu

/-- C20. In every state of a run that starts from a new client and proceeds through
`setSubscriptions`, `receive`, `unreceive` and `close` (and also through `connected`,
`send` and any transport callbacks, between the operations and during their waits),
the key of the subscription slot is empty if and only if its listener is absent. -/
theorem C20_slot_well_formed (getMetaData : ProtonMessage → MetaData) (s : AmqpClient)
    (h : Reachable getMetaData s) :
    s.m_subscriptions.1 = "" ↔ s.m_subscriptions.2 = none := by
  have key : slotWellFormed s := by
    induction h with
    | create url => simp [slotWellFormed, create]
    | callback e hr hf ih =>
      rename_i a b
      have hfr := fire_frame getMetaData a e
      rw [hf] at hfr
      exact slotWellFormed_of_eq hfr.1 ih
    | callback_raised e x hr hf ih =>
      rename_i a b
      have hfr := fire_frame getMetaData a e
      rw [hf] at hfr
      exact slotWellFormed_of_eq hfr.1 ih
    | connected evs r _ hc ih => exact slotWellFormed_of_eq (connected_frame hc).1 ih
    | send msg evsC evsS d _ hs ih => exact slotWellFormed_of_eq (send_slot hs) ih
    | receive address filter l evsC evsR d _ hr ih => exact receive_slotWellFormed hr ih
    | unreceive active evs d _ hu ih => exact unreceive_slotWellFormed hu ih
    | close ra evs ca d _ hcl ih => exact close_slotWellFormed hcl ih
    | setSubscriptions address l _ ih => exact setSubscriptions_slotWellFormed _ address l ih
  exact key

/-- The example client `subscribedClient` is a state of a run: `connectedClient`, then
`receive` answered by `on_receiver_open`. -/
theorem subscribedClient_reachable : Reachable noMetaData subscribedClient :=
  Reachable.receive "/topicTest" "" (some 1) []
    [Callback.on_receiver_open { address := "/topicTest" }] .Accepted
    connectedClient_reachable rfl

/-- Two runs of C20: the subscribed client, and the same client after a call of
`setSubscriptions` with an empty key, which is refused; key and listener are both
present in each. -/
theorem C20_slot_well_formed_witness :
    (subscribedClient.m_subscriptions.1 = "" ↔ subscribedClient.m_subscriptions.2 = none) ∧
    ((subscribedClient.setSubscriptions "" (some 9)).m_subscriptions.1 = "" ↔
      (subscribedClient.setSubscriptions "" (some 9)).m_subscriptions.2 = none) :=
  ⟨C20_slot_well_formed noMetaData subscribedClient subscribedClient_reachable,
    C20_slot_well_formed noMetaData (subscribedClient.setSubscriptions "" (some 9))
      (Reachable.setSubscriptions "" (some 9) subscribedClient_reachable)⟩

end MsgBus
